import Mathlib

/-!
# Verification of the vCard 3.0 validator core

Shallow embedding of the vendored `vcard` package
(`src/myenv/Lib/site-packages/vcard/`): the escape-aware splitter
(`vcard_utils.py`), the character-class registry (`vcard_definitions.py`),
the per-property validators (`vcard_validators.py`) and the line
unfolder / group extractor / property decomposer / record assembler /
file-level driver (`vcard_validator.py`).

Python strings are modelled as `List Char`.  Python exceptions are
modelled with `Except`; the `warnings.warn` side channel is modelled by
returning the list of warning messages alongside the success value.
The diagnostic `context` dictionary attached to each `VCardError` is not
modelled: in the source it is only ever written to while an error
propagates (never read), so it has no effect on control flow or on the
validation outcome.
-/

namespace VcardSpec

/-- Convert a Lean string literal to the `List Char` model of Python strings. -/
def toL (s : String) : List Char := s.data

/-- Python `str.upper()` restricted to ASCII. Non-ASCII case mappings
(which no claim exercises) are not modelled. -/
def pyUpper (s : List Char) : List Char := s.map Char.toUpper

/-- Python `str.lower()` restricted to ASCII. -/
def pyLower (s : List Char) : List Char := s.map Char.toLower

/-- Python `text[:-n]`: drop the last `n` characters (all of them if `n ≥ len`). -/
def dropEnd (s : List Char) (n : Nat) : List Char := s.take (s.length - n)

/-!
## `vcard_utils.py` — escape-aware splitting

`find_unescaped(text, char)` is implemented in the source as
`re.search` of the pattern `(?<!\\)(?:\\\\)*(char)` and returns
`match.start(1)`.  We embed the regex engine's behaviour on this
pattern directly:

* the engine tries match start positions `p = 0, 1, 2, …` in order;
* at `p` the look-behind requires the previous character not to be a
  backslash;
* `(?:\\\\)*` greedily consumes pairs of backslashes, backtracking from
  the maximal pair count, and then the capture group must match `char`;
* the returned index is the position of the captured character.
-/

/-- Number of leading `\\\\` pairs (the maximal count the group
`(?:\\\\)*` can consume). -/
def backslashPairs : List Char → Nat
  | x :: y :: rest => if x = '\\' ∧ y = '\\' then backslashPairs rest + 1 else 0
  | _ => 0

/-- Attempt the tail of the pattern at a fixed start position: try pair
counts `k = K, K-1, …, 0` (greedy with backtracking) and return the
index (relative to the start position) of the captured character. -/
def attemptFrom (suffix : List Char) (c : Char) : Nat → Option Nat
  | 0 => if suffix.head? = some c then some 0 else none
  | k + 1 =>
    if suffix.get? (2 * (k + 1)) = some c then some (2 * (k + 1))
    else attemptFrom suffix c k

/-- The regex engine's scan over candidate start positions.  `prev` is
the character just before the current position (for the look-behind). -/
def searchFrom : List Char → Char → Option Char → Option Nat
  | [], _, _ => none
  | x :: xs, c, prev =>
    match if prev = some '\\' then none
          else attemptFrom (x :: xs) c (backslashPairs (x :: xs)) with
    | some j => some j
    | none => (searchFrom xs c (some x)).map Nat.succ

/-- `find_unescaped(text, char)` from `vcard_utils.py`. -/
def find_unescaped (text : List Char) (c : Char) : Option Nat :=
  searchFrom text c none

theorem attemptFrom_get {suffix : List Char} {c : Char} {K j : Nat}
    (h : attemptFrom suffix c K = some j) : suffix.get? j = some c := by
  induction K with
  | zero =>
    simp only [attemptFrom] at h
    split at h
    · cases h
      rename_i hhead
      cases suffix with
      | nil => simp at hhead
      | cons y ys => simpa [List.head?] using hhead
    · cases h
  | succ k ih =>
    simp only [attemptFrom] at h
    split at h
    · cases h; assumption
    · exact ih h

theorem searchFrom_get {text : List Char} {c : Char} {prev : Option Char} {i : Nat}
    (h : searchFrom text c prev = some i) : text.get? i = some c := by
  induction text generalizing prev i with
  | nil => simp [searchFrom] at h
  | cons x xs ih =>
    by_cases hprev : prev = some '\\'
    · simp only [searchFrom, if_pos hprev] at h
      rcases Option.map_eq_some'.mp h with ⟨j, hj, rfl⟩
      simpa using ih hj
    · simp only [searchFrom, if_neg hprev] at h
      cases hatt : attemptFrom (x :: xs) c (backslashPairs (x :: xs)) with
      | some j =>
        rw [hatt] at h
        cases h
        exact attemptFrom_get hatt
      | none =>
        rw [hatt] at h
        rcases Option.map_eq_some'.mp h with ⟨j, hj, rfl⟩
        simpa using ih hj

theorem find_unescaped_get {text : List Char} {c : Char} {i : Nat}
    (h : find_unescaped text c = some i) : text.get? i = some c :=
  searchFrom_get h

theorem find_unescaped_lt {text : List Char} {c : Char} {i : Nat}
    (h : find_unescaped text c = some i) : i < text.length := by
  have := find_unescaped_get h
  exact List.get?_eq_some.mp this |>.1

/-- `split_unescaped(text, separator)` from `vcard_utils.py`.  The
source's `while True` loop is embedded with explicit fuel; since each
found index removes at least one character, `text.length + 1` units of
fuel always suffice (`split_unescaped_fuel`). -/
def splitGo (sep : Char) : Nat → List Char → List (List Char)
  | 0, text => [text]
  | fuel + 1, text =>
    match find_unescaped text sep with
    | some i => text.take i :: splitGo sep fuel (text.drop (i + 1))
    | none => [text]

def split_unescaped (text : List Char) (sep : Char) : List (List Char) :=
  splitGo sep (text.length + 1) text

theorem splitGo_fuel {sep : Char} :
    ∀ {m n : Nat} {text : List Char}, text.length < m → text.length < n →
      splitGo sep m text = splitGo sep n text := by
  intro m
  induction m with
  | zero => intro n text hm; omega
  | succ m ih =>
    intro n text hm hn
    match n, hn with
    | n + 1, hn =>
      simp only [splitGo]
      cases hfind : find_unescaped text sep with
      | none => rfl
      | some i =>
        have hi := find_unescaped_lt hfind
        have hdrop : (text.drop (i + 1)).length < text.length := by
          simp [List.length_drop]; omega
        exact congrArg _ (ih (by omega) (by omega))

theorem split_unescaped_eq {text : List Char} {sep : Char} {n : Nat}
    (h : text.length < n) : split_unescaped text sep = splitGo sep n text :=
  splitGo_fuel (by omega) h

theorem split_unescaped_none {text : List Char} {sep : Char}
    (h : find_unescaped text sep = none) : split_unescaped text sep = [text] := by
  show splitGo sep (text.length + 1) text = _
  simp [splitGo, h]

theorem split_unescaped_some {text : List Char} {sep : Char} {i : Nat}
    (h : find_unescaped text sep = some i) :
    split_unescaped text sep = text.take i :: split_unescaped (text.drop (i + 1)) sep := by
  have hi := find_unescaped_lt h
  show splitGo sep (text.length + 1) text = _
  simp only [splitGo, h]
  rw [split_unescaped_eq (n := text.length) (by simp [List.length_drop]; omega)]

/-!
### The parity view of unescapedness

The spec speaks of "unescaped occurrences": a character is unescaped
when it is preceded by an even number of consecutive backslashes.  We
define that notion directly (`countUnescaped`, `scanU`) and prove that
for every separator other than the backslash itself, the regex search
embedded above computes exactly the first unescaped occurrence.
-/

/-- Number of unescaped occurrences of `d`.  `esc` states whether the
run of backslashes immediately before the current position is odd. -/
def countUnescaped (d : Char) : List Char → Bool → Nat
  | [], _ => 0
  | x :: xs, esc =>
    (if x = d ∧ esc = false then 1 else 0) +
      countUnescaped d xs (if x = '\\' then !esc else false)

/-- Index of the first unescaped occurrence of `d` (parity view). -/
def scanU (d : Char) : List Char → Bool → Option Nat
  | [], _ => none
  | x :: xs, esc =>
    if x = d ∧ esc = false then some 0
    else (scanU d xs (if x = '\\' then !esc else false)).map Nat.succ

theorem searchFrom_cons_eq (x : Char) (xs : List Char) (c : Char) (prev : Option Char) :
    searchFrom (x :: xs) c prev =
      match if prev = some '\\' then none
            else attemptFrom (x :: xs) c (backslashPairs (x :: xs)) with
      | some j => some j
      | none => (searchFrom xs c (some x)).map Nat.succ := rfl

theorem searchFrom_cons_bs (x : Char) (xs : List Char) (c : Char) :
    searchFrom (x :: xs) c (some '\\') = (searchFrom xs c (some x)).map Nat.succ := by
  rw [searchFrom_cons_eq, if_pos rfl]

theorem searchFrom_cons_ok {prev : Option Char} (h : prev ≠ some '\\')
    (x : Char) (xs : List Char) (c : Char) :
    searchFrom (x :: xs) c prev =
      match attemptFrom (x :: xs) c (backslashPairs (x :: xs)) with
      | some j => some j
      | none => (searchFrom xs c (some x)).map Nat.succ := by
  rw [searchFrom_cons_eq, if_neg h]

theorem scanU_cons (d x : Char) (xs : List Char) (esc : Bool) :
    scanU d (x :: xs) esc =
      if x = d ∧ esc = false then some 0
      else (scanU d xs (if x = '\\' then !esc else false)).map Nat.succ := rfl

theorem countUnescaped_cons (d x : Char) (xs : List Char) (esc : Bool) :
    countUnescaped d (x :: xs) esc =
      (if x = d ∧ esc = false then 1 else 0) +
        countUnescaped d xs (if x = '\\' then !esc else false) := rfl

theorem backslashPairs_head_ne {t : List Char} (h : t.head? ≠ some '\\') :
    backslashPairs t = 0 := by
  match t with
  | [] => rfl
  | [x] => rfl
  | x :: y :: rest =>
    simp only [List.head?] at h
    have hx : x ≠ '\\' := fun hh => h (congrArg some hh)
    show backslashPairs (x :: y :: rest) = 0
    rw [backslashPairs, if_neg (by tauto)]

theorem backslashPairs_replicate :
    ∀ (r : Nat) (rest : List Char), rest.head? ≠ some '\\' →
      backslashPairs (List.replicate r '\\' ++ rest) = r / 2
  | 0, rest, h => by simpa using backslashPairs_head_ne h
  | 1, rest, h => by
    match rest, h with
    | [], _ => rfl
    | y :: ys, h =>
      simp only [List.head?] at h
      have hy : y ≠ '\\' := fun hh => h (congrArg some hh)
      show backslashPairs ('\\' :: y :: ys) = 0
      rw [backslashPairs, if_neg (by tauto)]
  | (r + 2), rest, h => by
    show backslashPairs ('\\' :: '\\' :: (List.replicate r '\\' ++ rest)) = (r + 2) / 2
    rw [backslashPairs, if_pos ⟨rfl, rfl⟩, backslashPairs_replicate r rest h]
    omega

theorem get?_replicate_append (r n : Nat) (rest : List Char) :
    (List.replicate r '\\' ++ rest).get? n =
      if n < r then some '\\' else rest.get? (n - r) := by
  induction r generalizing n with
  | zero => simp
  | succ r ih =>
    cases n with
    | zero => simp [List.replicate_succ]
    | succ n =>
      rw [List.replicate_succ, List.cons_append]
      show (List.replicate r '\\' ++ rest).get? n = _
      rw [ih n]
      by_cases h : n < r
      · simp [h, Nat.succ_lt_succ h]
      · have h' : ¬ n + 1 < r + 1 := by omega
        simp [h, h', Nat.succ_sub_succ]

theorem attemptFrom_none {t : List Char} {c : Char} {K : Nat}
    (h : ∀ k, k ≤ K → t.get? (2 * k) ≠ some c) : attemptFrom t c K = none := by
  induction K with
  | zero =>
    have h0 := h 0 (le_refl 0)
    simp only [attemptFrom]
    rw [if_neg]
    intro hc
    apply h0
    cases t with
    | nil => simp at hc
    | cons y ys => simpa using hc
  | succ k ih =>
    simp only [attemptFrom]
    rw [if_neg (h (k + 1) (le_refl _))]
    exact ih fun j hj => h j (Nat.le_succ_of_le hj)

theorem attemptFrom_hit {t : List Char} {c : Char} {K : Nat}
    (h : t.get? (2 * K) = some c) : attemptFrom t c K = some (2 * K) := by
  cases K with
  | zero =>
    simp only [attemptFrom]
    rw [if_pos]
    cases t with
    | nil => simp at h
    | cons y ys => simpa using h
  | succ k =>
    simp only [attemptFrom]
    rw [if_pos h]

/-- On a maximal backslash run followed by `rest`, the greedy attempt
captures position `r` exactly when the run has even length and `rest`
starts with the separator. -/
theorem attemptFrom_run {c : Char} (hc : c ≠ '\\') (r : Nat) (rest : List Char)
    (hrest : rest.head? ≠ some '\\') :
    attemptFrom (List.replicate r '\\' ++ rest) c (r / 2) =
      if r % 2 = 0 ∧ rest.head? = some c then some r else none := by
  have hget : ∀ n, (List.replicate r '\\' ++ rest).get? n =
      if n < r then some '\\' else rest.get? (n - r) := fun n => get?_replicate_append r n rest
  have hhead : rest.get? 0 = rest.head? := by cases rest <;> rfl
  by_cases heven : r % 2 = 0
  · by_cases hhit : rest.head? = some c
    · rw [if_pos ⟨heven, hhit⟩]
      have : 2 * (r / 2) = r := by omega
      rw [show (some r = some (2 * (r / 2))) from by rw [this]]
      apply attemptFrom_hit
      rw [hget, this, if_neg (lt_irrefl r), Nat.sub_self, hhead]
      exact hhit
    · rw [if_neg (by tauto)]
      apply attemptFrom_none
      intro k hk
      rw [hget]
      by_cases hlt : 2 * k < r
      · rw [if_pos hlt]
        intro hcc
        exact hc (Option.some_inj.mp hcc).symm
      · have h2k : 2 * k = r := by omega
        rw [if_neg hlt, h2k, Nat.sub_self, hhead]
        exact hhit
  · rw [if_neg (by tauto)]
    apply attemptFrom_none
    intro k hk
    have hlt : 2 * k < r := by omega
    rw [hget, if_pos hlt]
    intro hcc
    exact hc (Option.some_inj.mp hcc).symm

/-- Inside a backslash run the look-behind fails at every position, so
the scan skips the whole run and the character right after it. -/
theorem searchFrom_in_run {c : Char} :
    ∀ (r : Nat) (rest : List Char),
      searchFrom (List.replicate r '\\' ++ rest) c (some '\\') =
        match rest with
        | [] => none
        | y :: ys => (searchFrom ys c (some y)).map (· + (r + 1))
  | 0, [] => rfl
  | 0, y :: ys => by
    show searchFrom (y :: ys) c (some '\\') = (searchFrom ys c (some y)).map (· + (0 + 1))
    rw [searchFrom_cons_bs]
  | (r + 1), [] => by
    show searchFrom ('\\' :: (List.replicate r '\\' ++ [])) c (some '\\') = none
    rw [searchFrom_cons_bs, searchFrom_in_run r []]
    rfl
  | (r + 1), y :: ys => by
    show searchFrom ('\\' :: (List.replicate r '\\' ++ (y :: ys))) c (some '\\') =
      (searchFrom ys c (some y)).map (· + (r + 1 + 1))
    rw [searchFrom_cons_bs, searchFrom_in_run r (y :: ys)]
    show ((searchFrom ys c (some y)).map (· + (r + 1))).map Nat.succ = _
    rcases searchFrom ys c (some y) with _ | j
    · rfl
    · show some (j + (r + 1) + 1) = some (j + (r + 1 + 1))
      exact congrArg some (by omega)

/-- `scanU` over a backslash run: offsets shift by the run length and
the parity flag flips with the run's parity. -/
theorem scanU_run {c : Char} (hc : c ≠ '\\') :
    ∀ (r : Nat) (esc : Bool) (rest : List Char),
      scanU c (List.replicate r '\\' ++ rest) esc =
        (scanU c rest (if r % 2 = 0 then esc else !esc)).map (· + r)
  | 0, esc, rest => by
    show scanU c rest esc = (scanU c rest (if (0 : Nat) % 2 = 0 then esc else !esc)).map (· + 0)
    rw [if_pos rfl]
    rcases scanU c rest esc with _ | j
    · rfl
    · show some j = some (j + 0)
      exact congrArg some (by omega)
  | (r + 1), esc, rest => by
    show scanU c ('\\' :: (List.replicate r '\\' ++ rest)) esc = _
    rw [scanU_cons, if_neg (fun hca => hc hca.1.symm),
      if_pos rfl, scanU_run hc r (!esc) rest]
    have hpar : (if r % 2 = 0 then !esc else !(!esc)) =
        (if (r + 1) % 2 = 0 then esc else !esc) := by
      rcases Nat.mod_two_eq_zero_or_one r with h | h <;>
        simp [h, Nat.add_mod, Bool.not_not]
    rw [hpar]
    rcases scanU c rest (if (r + 1) % 2 = 0 then esc else !esc) with _ | j
    · rfl
    · show some (j + r + 1) = some (j + (r + 1))
      exact congrArg some (by omega)

/-- A list starting with a backslash decomposes into a maximal
backslash run and a remainder. -/
theorem exists_run_decomp :
    ∀ {t : List Char}, t.head? = some '\\' →
      ∃ r rest, 1 ≤ r ∧ t = List.replicate r '\\' ++ rest ∧ rest.head? ≠ some '\\'
  | [], h => by simp at h
  | x :: xs, h => by
    have hx : x = '\\' := by simpa using h
    subst hx
    by_cases hxs : xs.head? = some '\\'
    · obtain ⟨r, rest, hr, heq, hne⟩ := exists_run_decomp hxs
      exact ⟨r + 1, rest, by omega, by simp [List.replicate_succ, heq], hne⟩
    · exact ⟨1, xs, le_refl 1, by simp [List.replicate_succ], hxs⟩

/-- For every separator other than the backslash, the embedded regex
search agrees with the parity-based first-unescaped-occurrence scan. -/
theorem searchFrom_eq_scanU {c : Char} (hc : c ≠ '\\') :
    ∀ (n : Nat) (t : List Char), t.length ≤ n →
      ∀ (prev : Option Char), prev ≠ some '\\' →
        searchFrom t c prev = scanU c t false := by
  intro n
  induction n with
  | zero =>
    intro t ht prev _
    have : t = [] := List.length_eq_zero.mp (Nat.le_zero.mp ht)
    subst this; rfl
  | succ n ih =>
    intro t ht prev hprev
    match t with
    | [] => rfl
    | x :: xs =>
      by_cases hx : x = '\\'
      · subst hx
        obtain ⟨r, rest, hr, heq, hne⟩ :=
          exists_run_decomp (t := '\\' :: xs) rfl
        rw [heq]
        have hlen : r + rest.length = xs.length + 1 := by
          have := congrArg List.length heq
          simpa using this.symm
        have hK : backslashPairs (List.replicate r '\\' ++ rest) = r / 2 :=
          backslashPairs_replicate r rest hne
        have hatt := attemptFrom_run hc r rest hne
        match r, hr, hK, hatt, hlen with
        | r + 1, _, hK, hatt, hlen =>
        rw [show (List.replicate (r + 1) '\\' ++ rest) =
          ('\\' :: (List.replicate r '\\' ++ rest)) from rfl, searchFrom_cons_ok hprev]
        have hK' : backslashPairs ('\\' :: (List.replicate r '\\' ++ rest)) = (r + 1) / 2 := hK
        rw [hK']
        rw [show ('\\' :: (List.replicate r '\\' ++ rest)) =
          (List.replicate (r + 1) '\\' ++ rest) from rfl, hatt,
          scanU_run hc (r + 1) false rest]
        by_cases hcase : (r + 1) % 2 = 0 ∧ rest.head? = some c
        · obtain ⟨hpar, hhead⟩ := hcase
          rw [if_pos ⟨hpar, hhead⟩, if_pos hpar]
          match rest, hhead with
          | y :: ys, hhead =>
            have hy : y = c := by simpa using hhead
            subst hy
            rw [scanU_cons, if_pos ⟨rfl, rfl⟩]
            show some (r + 1) = some (0 + (r + 1))
            exact congrArg some (by omega)
        · rw [if_neg hcase]
          show ((searchFrom (List.replicate r '\\' ++ rest) c (some '\\')).map Nat.succ) = _
          rw [searchFrom_in_run r rest]
          match rest, hne, hcase, hlen with
          | [], _, _, _ => rfl
          | y :: ys, hne, hcase, hlen =>
            have hy : y ≠ '\\' := by simpa using hne
            have hys : searchFrom ys c (some y) = scanU c ys false := by
              apply ih ys _ (some y) (by simpa using hy)
              have hxl : ('\\' :: xs).length ≤ n + 1 := ht
              simp at hxl hlen
              omega
            have hnothit : ¬ (y = c ∧ (if (r + 1) % 2 = 0 then false else !false) = false) := by
              rcases Nat.mod_two_eq_zero_or_one (r + 1) with h | h
              · intro hcontra
                exact hcase ⟨h, by simp [hcontra.1]⟩
              · intro hcontra
                rw [if_neg (by omega)] at hcontra
                simp at hcontra
            show ((searchFrom ys c (some y)).map (· + (r + 1))).map Nat.succ = _
            rw [scanU_cons, if_neg hnothit, if_neg hy, hys]
            rcases scanU c ys false with _ | j
            · rfl
            · show some (j + (r + 1) + 1) = some (j + 1 + (r + 1))
              exact congrArg some (by omega)
      · -- head is not a backslash: plain lock-step
        rw [searchFrom_cons_ok hprev,
          backslashPairs_head_ne (t := x :: xs) (by simpa using hx)]
        have hxsIH : searchFrom xs c (some x) = scanU c xs false := by
          apply ih xs _ (some x) (by simpa using hx)
          have hxl : (x :: xs).length ≤ n + 1 := ht
          simp at hxl
          omega
        by_cases hxc : x = c
        · subst hxc
          rw [show attemptFrom (x :: xs) x 0 = some 0 from by
            simp [attemptFrom, List.head?]]
          rw [scanU_cons, if_pos ⟨rfl, rfl⟩]
        · rw [show attemptFrom (x :: xs) c 0 = none from by
            simp [attemptFrom, List.head?, hxc]]
          show (searchFrom xs c (some x)).map Nat.succ = _
          rw [scanU_cons, if_neg (by tauto), if_neg hx, hxsIH]

/-- `find_unescaped` computes the first parity-unescaped occurrence,
for every separator other than the backslash. -/
theorem find_unescaped_eq_scanU {c : Char} (hc : c ≠ '\\') (t : List Char) :
    find_unescaped t c = scanU c t false :=
  searchFrom_eq_scanU hc t.length t (le_refl _) none (by simp)

/-!
### Properties of `split_unescaped`
-/

theorem scanU_none_iff {d : Char} :
    ∀ {t : List Char} {esc : Bool}, scanU d t esc = none ↔ countUnescaped d t esc = 0 := by
  intro t
  induction t with
  | nil => intro esc; simp [scanU, countUnescaped]
  | cons x xs ih =>
    intro esc
    rw [scanU_cons, countUnescaped_cons]
    by_cases h : x = d ∧ esc = false
    · simp [if_pos h]
    · rw [if_neg h, if_neg h, Nat.zero_add]
      rw [← ih]
      rcases scanU d xs (if x = '\\' then !esc else false) with _ | j <;> simp

theorem scanU_some_count {d : Char} (hd : d ≠ '\\') :
    ∀ {t : List Char} {esc : Bool} {i : Nat}, scanU d t esc = some i →
      countUnescaped d t esc = 1 + countUnescaped d (t.drop (i + 1)) false := by
  intro t
  induction t with
  | nil => intro esc i h; simp [scanU] at h
  | cons x xs ih =>
    intro esc i h
    rw [scanU_cons] at h
    by_cases hx : x = d ∧ esc = false
    · rw [if_pos hx] at h
      cases h
      rw [countUnescaped_cons, if_pos hx]
      have hxbs : ¬ x = '\\' := fun hh => hd (hx.1.symm.trans hh)
      rw [if_neg hxbs]
      rfl
    · rw [if_neg hx] at h
      rcases Option.map_eq_some'.mp h with ⟨j, hj, rfl⟩
      rw [countUnescaped_cons, if_neg hx, Nat.zero_add, ih hj]
      rfl

theorem scanU_some_take {d : Char} :
    ∀ {t : List Char} {esc : Bool} {i : Nat}, scanU d t esc = some i →
      countUnescaped d (t.take i) esc = 0 := by
  intro t
  induction t with
  | nil => intro esc i h; simp [scanU] at h
  | cons x xs ih =>
    intro esc i h
    rw [scanU_cons] at h
    by_cases hx : x = d ∧ esc = false
    · rw [if_pos hx] at h
      cases h
      rfl
    · rw [if_neg hx] at h
      rcases Option.map_eq_some'.mp h with ⟨j, hj, rfl⟩
      rw [List.take_succ_cons, countUnescaped_cons, if_neg hx, Nat.zero_add]
      exact ih hj

/-- "Joining the elements with d": the comparison notion used by the
spec's round-trip property. -/
def joinWith (sep : List Char) : List (List Char) → List Char
  | [] => []
  | [x] => x
  | x :: y :: rest => x ++ sep ++ joinWith sep (y :: rest)

theorem split_unescaped_ne_nil (text : List Char) (sep : Char) :
    split_unescaped text sep ≠ [] := by
  cases h : find_unescaped text sep with
  | none => rw [split_unescaped_none h]; simp
  | some i => rw [split_unescaped_some h]; simp

theorem joinWith_cons (sep : List Char) (x : List Char) {l : List (List Char)} (h : l ≠ []) :
    joinWith sep (x :: l) = x ++ sep ++ joinWith sep l := by
  match l, h with
  | y :: rest, _ => rfl

/-- Round-trip: joining the split with the separator reconstructs the
input.  This holds for every separator, including the backslash. -/
theorem split_unescaped_join :
    ∀ (n : Nat) (text : List Char), text.length ≤ n → ∀ (sep : Char),
      joinWith [sep] (split_unescaped text sep) = text := by
  intro n
  induction n with
  | zero =>
    intro text ht sep
    have : text = [] := List.length_eq_zero.mp (Nat.le_zero.mp ht)
    subst this
    rfl
  | succ n ih =>
    intro text ht sep
    cases h : find_unescaped text sep with
    | none => rw [split_unescaped_none h]; rfl
    | some i =>
      have hi := find_unescaped_lt h
      have hget := find_unescaped_get h
      rw [split_unescaped_some h,
        joinWith_cons _ _ (split_unescaped_ne_nil _ _),
        ih (text.drop (i + 1)) (by simp [List.length_drop]; omega) sep]
      have : text.take i ++ [sep] ++ text.drop (i + 1) = text := by
        have hdrop : text.drop i = sep :: text.drop (i + 1) := by
          rw [List.drop_eq_get_cons hi]
          have : text.get ⟨i, hi⟩ = sep := by
            have := List.get?_eq_get hi
            rw [this] at hget
            exact Option.some_inj.mp hget
          rw [this]
        calc text.take i ++ [sep] ++ text.drop (i + 1)
            = text.take i ++ ([sep] ++ text.drop (i + 1)) := by rw [List.append_assoc]
          _ = text.take i ++ text.drop i := by rw [hdrop]; rfl
          _ = text := List.take_append_drop i text
      exact this

/-- Element count: one more than the number of unescaped separators
(for separators other than the backslash). -/
theorem split_unescaped_length {sep : Char} (hsep : sep ≠ '\\') :
    ∀ (n : Nat) (text : List Char), text.length ≤ n →
      (split_unescaped text sep).length = countUnescaped sep text false + 1 := by
  intro n
  induction n with
  | zero =>
    intro text ht
    have : text = [] := List.length_eq_zero.mp (Nat.le_zero.mp ht)
    subst this
    rfl
  | succ n ih =>
    intro text ht
    cases h : find_unescaped text sep with
    | none =>
      rw [split_unescaped_none h]
      rw [find_unescaped_eq_scanU hsep] at h
      rw [scanU_none_iff.mp h]
      rfl
    | some i =>
      have hi := find_unescaped_lt h
      rw [split_unescaped_some h, List.length_cons,
        ih (text.drop (i + 1)) (by simp [List.length_drop]; omega)]
      rw [find_unescaped_eq_scanU hsep] at h
      rw [scanU_some_count hsep h]
      omega

/-- No element of the split contains an unescaped separator (for
separators other than the backslash). -/
theorem split_unescaped_elements {sep : Char} (hsep : sep ≠ '\\') :
    ∀ (n : Nat) (text : List Char), text.length ≤ n →
      ∀ e ∈ split_unescaped text sep, countUnescaped sep e false = 0 := by
  intro n
  induction n with
  | zero =>
    intro text ht e he
    have : text = [] := List.length_eq_zero.mp (Nat.le_zero.mp ht)
    subst this
    have : e = [] := by
      have : split_unescaped [] sep = [[]] := by rfl
      rw [this] at he
      simpa using he
    subst this
    rfl
  | succ n ih =>
    intro text ht e he
    cases h : find_unescaped text sep with
    | none =>
      rw [split_unescaped_none h] at he
      rw [find_unescaped_eq_scanU hsep] at h
      have : e = text := by simpa using he
      subst this
      exact scanU_none_iff.mp h
    | some i =>
      have hi := find_unescaped_lt h
      rw [split_unescaped_some h] at he
      rcases List.mem_cons.mp he with rfl | he'
      · rw [find_unescaped_eq_scanU hsep] at h
        exact scanU_some_take h
      · exact ih (text.drop (i + 1)) (by simp [List.length_drop]; omega) e he'

/-!
## `vcard_definitions.py` — character-class registry and literals
-/

def NEWLINE_CHARACTERS : List Char := toL "\r\n"
def DOUBLE_QUOTE_CHARACTER : Char := '"'
def SPACE_CHARACTER : Char := ' '
def SPACE_CHARACTERS : List Char := [SPACE_CHARACTER, '\t']

/-- The 128 characters `\x80`–`\xff` (written in the source as an
explicit literal). -/
def NON_ASCII_CHARACTERS : List Char := (List.range 128).map (fun i => Char.ofNat (128 + i))

def SAFE_PUNCTUATION_CHARACTERS : List Char :=
  toL "!#$%&" ++ ['\''] ++ toL "()*+-./<=>?@[]^_`" ++ [Char.ofNat 123, '|', Char.ofNat 125, '~']

def asciiDigits : List Char := toL "0123456789"

def asciiLetters : List Char :=
  toL "abcdefghijklmnopqrstuvwxyzABCDEFGHIJKLMNOPQRSTUVWXYZ"

def SAFE_CHARACTERS : List Char :=
  SPACE_CHARACTERS ++ SAFE_PUNCTUATION_CHARACTERS ++ asciiDigits ++ asciiLetters
    ++ NON_ASCII_CHARACTERS

def QUOTE_SAFE_CHARACTERS : List Char := SAFE_CHARACTERS ++ [',', ':', ';']

/-- Character class of `REGEX_VALUE_CHARACTERS`
(`QUOTE_SAFE_CHARACTERS` plus backslash plus double quote). -/
def VALUE_CHARACTERS : List Char := QUOTE_SAFE_CHARACTERS ++ ['\\', DOUBLE_QUOTE_CHARACTER]

/-- Character class of `REGEX_ESCAPED_CHARACTERS` (`\;,nN`). -/
def ESCAPED_CHARACTERS : List Char := ['\\', ';', ',', 'n', 'N']

def MANDATORY_PROPERTIES : List (List Char) :=
  [toL "BEGIN", toL "END", toL "FN", toL "N", toL "VERSION"]

def PREDEFINED_PROPERTIES : List (List Char) :=
  [toL "BEGIN", toL "END", toL "NAME", toL "PROFILE", toL "SOURCE"]

def OTHER_PROPERTIES : List (List Char) :=
  [toL "ADR", toL "AGENT", toL "BDAY", toL "CATEGORIES", toL "CLASS", toL "EMAIL",
   toL "GEO", toL "KEY", toL "LABEL", toL "LOGO", toL "MAILER", toL "NICKNAME",
   toL "NOTE", toL "ORG", toL "PHOTO", toL "PRODID", toL "REV", toL "ROLE",
   toL "SORT-STRING", toL "SOUND", toL "TEL", toL "TITLE", toL "TZ", toL "UID",
   toL "URL"]

/-- `list(set(M + P + O))`: the Python set only deduplicates; it is used
exclusively through membership tests, so the iteration order chosen here
is irrelevant. -/
def ALL_PROPERTIES : List (List Char) :=
  (MANDATORY_PROPERTIES ++ PREDEFINED_PROPERTIES ++ OTHER_PROPERTIES).dedup

def ID_CHARACTERS : List Char := asciiLetters ++ asciiDigits ++ ['-']

def VCARD_LINE_MAX_LENGTH : Nat := 75

def VCARD_LINE_MAX_LENGTH_RAW : Nat := VCARD_LINE_MAX_LENGTH + NEWLINE_CHARACTERS.length

/-!
## Error model

`vcard_errors.py` is imported by every module of the package but is not
itself under `src/`; only its exception class names and message
constants are visible at the import sites.
-/

/-- The exception classes of the absent `vcard_errors.py`, one
constructor per class used by the sources, plus constructors for the
built-in Python exceptions the sources can raise (`NotImplementedError`
in `handle_agent`, `IndexError` on out-of-range subscripts).  The
built-ins are not `VCardError` subclasses, so the file driver's
`except VCardError` does not catch them.  The diagnostic `context`
mapping is write-only in the sources and is not modelled. -/
inductive VErr where
  | base (msg : List Char)
  | lineError (msg : List Char)
  | nameError (msg : List Char)
  | itemCountError (msg : List Char)
  | valueError (msg : List Char)
  | notImplementedError
  | indexError
  deriving DecidableEq, Repr

/-- Is the exception a `VCardError` (caught by `except VCardError`)? -/
def VErr.isVCardError : VErr → Bool
  | .notImplementedError | .indexError => false
  | _ => true

/-- Modelled from the spec: `str(error)` for the absent
`vcard_errors.py`; the spec says failures expose "a message ... and a
context mapping".  Only the message is modelled; the claims never
inspect the rendering, only whether the report is empty. -/
def VErr.render : VErr → List Char
  | .base m | .lineError m | .nameError m | .itemCountError m | .valueError m => m
  | .notImplementedError => toL "NotImplementedError"
  | .indexError => toL "IndexError"

/-- Modelled from the spec: message constants from the absent
`vcard_errors.py`.  Their values are opaque to every claim; only
distinctness and the surrounding `f"{NOTE}: ..."` formatting (which is
in the sources) matter. -/
def NOTE_CONTINUATION_AT_START : List Char := toL "Continuation line at start"
def NOTE_DOT_AT_LINE_START : List Char := toL "Dot at start of line"
def NOTE_EMPTY_VCARD : List Char := toL "Empty vCard"
def NOTE_INVALID_DATE : List Char := toL "Invalid date"
def NOTE_INVALID_LANGUAGE_VALUE : List Char := toL "Invalid language"
def NOTE_INVALID_LINE_SEPARATOR : List Char := toL "Invalid line separator"
def NOTE_INVALID_PARAMETER_NAME : List Char := toL "Invalid parameter name"
def NOTE_INVALID_PARAMETER_VALUE : List Char := toL "Invalid parameter value"
def NOTE_INVALID_PROPERTY_NAME : List Char := toL "Invalid property name"
def NOTE_INVALID_SUB_VALUE : List Char := toL "Invalid sub-value"
def NOTE_INVALID_SUB_VALUE_COUNT : List Char := toL "Invalid sub-value count"
def NOTE_INVALID_TEXT_VALUE : List Char := toL "Invalid text value"
def NOTE_INVALID_TIME_ZONE : List Char := toL "Invalid time zone"
def NOTE_INVALID_URI : List Char := toL "Invalid URI"
def NOTE_INVALID_VALUE : List Char := toL "Invalid value"
def NOTE_INVALID_VALUE_COUNT : List Char := toL "Invalid value count"
def NOTE_INVALID_X_NAME : List Char := toL "Invalid X-name"
def NOTE_MISMATCH_GROUP : List Char := toL "Group mismatch"
def NOTE_MISMATCH_PARAMETER : List Char := toL "Parameter mismatch"
def NOTE_MISSING_GROUP : List Char := toL "Missing group"
def NOTE_MISSING_PARAM_VALUE : List Char := toL "Missing parameter value"
def NOTE_MISSING_PARAMETER : List Char := toL "Missing parameter"
def NOTE_MISSING_PROPERTY : List Char := toL "Missing mandatory property"
def NOTE_MISSING_VALUE_STRING : List Char := toL "Missing value string"
def NOTE_NON_EMPTY_PARAMETER : List Char := toL "Non-empty parameter"
def WARN_DEFAULT_TYPE_VALUE : List Char := toL "Default type value"
def WARN_INVALID_EMAIL_TYPE : List Char := toL "Invalid email type"
def WARN_MULTIPLE_NAMES : List Char := toL "Multiple names"

/-!
## Python container helpers
-/

/-- `python` `set(list)`: deduplicate.  CPython iterates sets in
hash order; iteration order only influences which of several equivalent
diagnostics fires first, never whether one fires, so first-occurrence
order is used. -/
def pySet (l : List (List Char)) : List (List Char) :=
  l.foldl (fun acc x => if acc.contains x then acc else acc ++ [x]) []

/-- Python `set.union`. -/
def setUnion (a b : List (List Char)) : List (List Char) :=
  a ++ b.filter (fun x => !a.contains x)

/-- Python `set.__eq__` (extensional). -/
def setEq (a b : List (List Char)) : Bool :=
  a.all (b.contains ·) && b.all (a.contains ·)

/-- Python `dict` with `str` keys: insertion-ordered association list
with unique keys. -/
abbrev ParamMap : Type := List (List Char × List (List Char))

def hasKey (m : ParamMap) (k : List Char) : Bool :=
  (m : List _).any (fun e => e.1 = k)

def mapGet (m : ParamMap) (k : List Char) : List (List Char) :=
  match (m : List _).find? (fun e => e.1 = k) with
  | some e => e.2
  | none => []

/-- `params[k] = v` on a fresh key / merge on an existing one
(`get_vcard_property_params` merge step). -/
def mapSetUnion (m : ParamMap) (k : List Char) (vs : List (List Char)) : ParamMap :=
  if hasKey m k then
    (m : List _).map (fun e => if e.1 = k then (e.1, setUnion e.2 vs) else e)
  else (m : List _) ++ [(k, vs)]

/-- Python `repr` of a string, approximated (no escape processing);
appears only inside diagnostic messages, never read back. -/
def pyReprStr (s : List Char) : List Char := '\'' :: s ++ ['\'']

def pyReprList (items : List (List Char)) : List Char :=
  '[' :: joinWith (toL ", ") (items.map pyReprStr) ++ [']']

def pyReprValues (vals : List (List (List Char))) : List Char :=
  '[' :: joinWith (toL ", ") (vals.map pyReprList) ++ [']']

def pyReprSet (items : List (List Char)) : List Char :=
  Char.ofNat 123 :: joinWith (toL ", ") (items.map pyReprStr) ++ [Char.ofNat 125]

def pyReprParams (m : ParamMap) : List Char :=
  Char.ofNat 123 ::
    joinWith (toL ", ")
      ((m : List _).map (fun e => pyReprStr e.1 ++ toL ": " ++ pyReprSet e.2)) ++
    [Char.ofNat 125]

def natToL (n : Nat) : List Char := (Nat.repr n).data

/-!
## `vcard_property.py`
-/

structure VcardProperty where
  name : List Char
  values : List (List (List Char))
  parameters : ParamMap := []
  deriving DecidableEq, Repr

/-!
## `vcard_validators.py` — per-property validation

The anchored regexes of the source are embedded as scanners over the
same character classes.  Python's `$` anchor matches at the end of the
string or just before one trailing `'\n'`; `pyFullMatch` reproduces
that rule.
-/

def pyFullMatch (core : List Char → Bool) (t : List Char) : Bool :=
  core t || (t.getLast? = some '\n' && core t.dropLast)

/-- `VALID_DATE`: `^\d{4}-?\d{2}-?\d{2}$` (each `-?` is effectively
deterministic because a digit never matches a dash). -/
def dateCore (t : List Char) : Bool :=
  let d4 := t.take 4
  if d4.length = 4 && d4.all Char.isDigit then
    let t1 := t.drop 4
    let t1 := if t1.head? = some '-' then t1.drop 1 else t1
    let d2 := t1.take 2
    if d2.length = 2 && d2.all Char.isDigit then
      let t2 := t1.drop 2
      let t2 := if t2.head? = some '-' then t2.drop 1 else t2
      let d3 := t2.take 2
      d3.length = 2 && d3.all Char.isDigit && t2.drop 2 = []
    else false
  else false

/-- `VALID_TIMEZONE`: `^(Z|[+-]\d{2}:?\d{2})$`. -/
def tzCore (t : List Char) : Bool :=
  if t = ['Z'] then true
  else
    match t with
    | s :: rest =>
      if s = '+' || s = '-' then
        let h2 := rest.take 2
        if h2.length = 2 && h2.all Char.isDigit then
          let r := rest.drop 2
          let r := if r.head? = some ':' then r.drop 1 else r
          let m2 := r.take 2
          m2.length = 2 && m2.all Char.isDigit && r.drop 2 = []
        else false
      else false
    | [] => false

/-- `VALID_LANGUAGE_TAG`: `^([a-z]{1,8})(-[a-z]{1,8})*$`, i.e.
dash-separated segments of one to eight lowercase letters. -/
def langCore (t : List Char) : Bool :=
  (t.splitOn '-').all fun seg =>
    seg ≠ [] && seg.length ≤ 8 && seg.all (fun c => 'a' ≤ c && c ≤ 'z')

/-- `VALID_X_NAME`: `^X-[ID]+$` (case-sensitive). -/
def xNameCore (t : List Char) : Bool :=
  match t with
  | 'X' :: '-' :: rest => rest ≠ [] && rest.all (ID_CHARACTERS.contains ·)
  | _ => false

/-- `VALID_PRESENTATION_TEXT`: `^[SAFE]*$`. -/
def presentationCore (t : List Char) : Bool := t.all (SAFE_CHARACTERS.contains ·)

/-- `VALID_TEXT`: `^([SAFE:"]|(\\[\\;,nN]))*$`.  The single-character
branch never matches a backslash, so the scan is deterministic. -/
def textCore : List Char → Bool
  | [] => true
  | '\\' :: rest =>
    match rest with
    | [] => false
    | e :: rest2 => ESCAPED_CHARACTERS.contains e && textCore rest2
  | c :: rest =>
    (SAFE_CHARACTERS.contains c || c = ':' || c = DOUBLE_QUOTE_CHARACTER) && textCore rest

/-- `VALID_QUOTED_STRING`: `^"[QS]"$` — note the source has no `+` or
`*`, so exactly one quote-safe character between the quotes. -/
def quotedStringCore (t : List Char) : Bool :=
  match t with
  | [q1, c, q2] =>
    q1 = DOUBLE_QUOTE_CHARACTER && q2 = DOUBLE_QUOTE_CHARACTER
      && QUOTE_SAFE_CHARACTERS.contains c
  | _ => false

/-- `VALID_FLOAT`: `^[+-]?\d+(\.\d+)?$`. -/
def floatCore (t : List Char) : Bool :=
  let body := match t.head? with
    | some c => if c = '+' || c = '-' then t.drop 1 else t
    | none => t
  match body.splitOn '.' with
  | [a] => a ≠ [] && a.all Char.isDigit
  | [a, b] => a ≠ [] && a.all Char.isDigit && b ≠ [] && b.all Char.isDigit
  | _ => false

/-- The inline parameter-value pattern of
`get_vcard_property_param_values`: `^[SAFE]+$|^"[QS]+"$`. -/
def paramValueCore (t : List Char) : Bool :=
  (t ≠ [] && t.all (SAFE_CHARACTERS.contains ·)) ||
    (t.length ≥ 3 && t.head? = some DOUBLE_QUOTE_CHARACTER
      && t.getLast? = some DOUBLE_QUOTE_CHARACTER
      && (t.drop 1).dropLast.all (QUOTE_SAFE_CHARACTERS.contains ·))

def LABEL_TYPE_VALUES : List (List Char) :=
  [toL "dom", toL "intl", toL "postal", toL "parcel", toL "home", toL "work", toL "pref"]

def TELEPHONE_TYPE_VALUES : List (List Char) :=
  [toL "home", toL "msg", toL "work", toL "pref", toL "voice", toL "fax", toL "cell",
   toL "video", toL "pager", toL "bbs", toL "modem", toL "car", toL "isdn", toL "pcs"]

def EMAIL_TYPE_VALUES : List (List Char) :=
  [toL "internet", toL "x400", toL "pref", toL "dom", toL "intl", toL "postal",
   toL "parcel", toL "home", toL "work"]

def _expect_no_parameters (p : VcardProperty) : Except VErr Unit :=
  if p.parameters ≠ [] then
    .error (.itemCountError (NOTE_NON_EMPTY_PARAMETER ++ toL ": " ++ pyReprParams p.parameters))
  else .ok ()

def _expect_parameters (p : VcardProperty) : Except VErr Unit :=
  if p.parameters = [] then .error (.itemCountError NOTE_MISSING_PARAMETER) else .ok ()

def _expect_value_count {α : Type} (values : List α) (count : Nat) : Except VErr Unit :=
  if values.length ≠ count then
    .error (.itemCountError (NOTE_INVALID_VALUE_COUNT ++ toL ": " ++ natToL values.length
      ++ toL " (expected " ++ natToL count ++ toL ")"))
  else .ok ()

def _expect_sub_value_count (sub_values : List (List Char)) (count : Nat) : Except VErr Unit :=
  if sub_values.length ≠ count then
    .error (.itemCountError (NOTE_INVALID_SUB_VALUE_COUNT ++ toL ": " ++ natToL sub_values.length
      ++ toL " (expected " ++ natToL count ++ toL ")"))
  else .ok ()

def _expect_parameter_values (param_values expected : List (List Char)) : Except VErr Unit :=
  if !setEq param_values expected then
    .error (.valueError (NOTE_INVALID_PARAMETER_VALUE ++ toL ": " ++ pyReprSet param_values))
  else .ok ()

def _expect_no_parameter (parameters : ParamMap) (parameter_name conflicting : List Char) :
    Except VErr Unit :=
  if hasKey parameters conflicting then
    .error (.valueError (NOTE_MISMATCH_PARAMETER ++ toL ": " ++ parameter_name
      ++ toL " and " ++ conflicting))
  else .ok ()

/-- Python `values[0]` (raises `IndexError` when empty). -/
def pyHead {α : Type} : List α → Except VErr α
  | x :: _ => .ok x
  | [] => .error .indexError

/-- Python `values[0][0]`. -/
def sub00 (values : List (List (List Char))) : Except VErr (List Char) := do
  pyHead (← pyHead values)

/-- A Python `for` loop whose body can only raise. -/
def firstM {α : Type} (f : α → Except VErr Unit) : List α → Except VErr Unit
  | [] => .ok ()
  | x :: xs => do
    f x
    firstM f xs

/-- Modelled from the spec: validity of the already-regex-matched date
under `dateutil.parser.isoparse`, a third-party dependency not in
`src/`; the spec says the value must "parse as a valid calendar date".
`isoparse` accepts the all-digit and the fully dashed form, not the
mixed ones, and checks calendar validity. -/
def isoparseDateOk (t : List Char) : Bool :=
  let toNum := fun (ds : List Char) => ds.foldl (fun acc c => acc * 10 + (c.toNat - 48)) 0
  let check := fun (y m d : Nat) =>
    let leap := (y % 4 = 0 && y % 100 ≠ 0) || y % 400 = 0
    let dim := if [1, 3, 5, 7, 8, 10, 12].contains m then 31
      else if [4, 6, 9, 11].contains m then 30
      else if m = 2 then (if leap then 29 else 28) else 0
    1 ≤ m && m ≤ 12 && 1 ≤ d && d ≤ dim
  if t.length = 8 && t.all Char.isDigit then
    check (toNum (t.take 4)) (toNum ((t.drop 4).take 2)) (toNum (t.drop 6))
  else if t.length = 10 && t.get? 4 = some '-' && t.get? 7 = some '-' then
    check (toNum (t.take 4)) (toNum ((t.drop 5).take 2)) (toNum (t.drop 8))
  else false

/-- Modelled from the spec: acceptance of the already-regex-matched
UTC-offset text by `dateutil.parser.isoparse` (third-party, not in
`src/`): `Z`, or a signed offset with hours below 24 and minutes below
60. -/
def isoparseTzOk (t : List Char) : Bool :=
  if t = ['Z'] then true
  else
    let digitsOnly := (t.drop 1).filter Char.isDigit
    let toNum := fun (ds : List Char) => ds.foldl (fun acc c => acc * 10 + (c.toNat - 48)) 0
    let hh := toNum (digitsOnly.take 2)
    let mm := toNum (digitsOnly.drop 2)
    hh < 24 && mm < 60

/-- Modelled from the spec: the `(scheme, netloc, path)` triple of
`urllib.parse.urlparse` (standard library, not in `src/`), sufficient
for the emptiness tests of `validate_uri`: "value must parse as a URI
with both a scheme and either network or path component present".
Query and fragment are irrelevant to those tests and are simply cut
off the path. -/
def urlparse3 (t : List Char) : List Char × List Char × List Char :=
  let isSchemeChar := fun (c : Char) =>
    c.isAlpha || c.isDigit || c = '+' || c = '-' || c = '.'
  let schemeSplit :=
    match t.findIdx? (· = ':') with
    | some i =>
      let pre := t.take i
      if pre ≠ [] && (pre.headD 'a').isAlpha && pre.all isSchemeChar then
        (pyLower pre, t.drop (i + 1))
      else ([], t)
    | none => ([], t)
  let scheme := schemeSplit.1
  let rest := schemeSplit.2
  let netSplit :=
    if rest.take 2 = toL "//" then
      let r := rest.drop 2
      match r.findIdx? (fun c => c = '/' || c = '?' || c = '#') with
      | some j => (r.take j, r.drop j)
      | none => (r, ([] : List Char))
    else (([] : List Char), rest)
  let path :=
    match netSplit.2.findIdx? (fun c => c = '?' || c = '#') with
    | some j => netSplit.2.take j
    | none => netSplit.2
  (scheme, netSplit.1, path)

def validate_date (text : List Char) : Except VErr Unit :=
  if !pyFullMatch dateCore text then .error (.valueError NOTE_INVALID_DATE)
  else if !isoparseDateOk text then .error (.valueError NOTE_INVALID_DATE)
  else .ok ()

def validate_time_zone (text : List Char) : Except VErr Unit :=
  if !pyFullMatch tzCore text then .error (.valueError NOTE_INVALID_TIME_ZONE)
  else if !isoparseTzOk text then .error (.valueError NOTE_INVALID_TIME_ZONE)
  else .ok ()

def validate_language_tag (text : List Char) : Except VErr Unit :=
  let text := pyLower text
  if !pyFullMatch langCore text then .error (.valueError NOTE_INVALID_LANGUAGE_VALUE)
  else .ok ()

def validate_x_name (text : List Char) : Except VErr Unit :=
  if !pyFullMatch xNameCore text then .error (.nameError NOTE_INVALID_X_NAME)
  else .ok ()

def validate_presentation_text (text : List Char) : Except VErr Unit :=
  if !pyFullMatch presentationCore text then .error (.valueError NOTE_INVALID_PARAMETER_VALUE)
  else .ok ()

def validate_text_value (text : List Char) : Except VErr Unit :=
  if !pyFullMatch textCore text then .error (.valueError NOTE_INVALID_TEXT_VALUE)
  else .ok ()

def validate_quoted_string (text : List Char) : Except VErr Unit :=
  if !pyFullMatch quotedStringCore text then .error (.valueError NOTE_INVALID_PARAMETER_VALUE)
  else .ok ()

def validate_param_value (text : List Char) : Except VErr Unit :=
  match validate_presentation_text text with
  | .ok _ => .ok ()
  | .error _ =>
    match validate_quoted_string text with
    | .ok _ => .ok ()
    | .error _ => .error (.valueError NOTE_INVALID_PARAMETER_VALUE)

def validate_text_parameter (parameter : List Char × List (List Char)) : Except VErr Unit :=
  let param_name := pyUpper parameter.1
  let param_values := parameter.2
  if param_name = toL "VALUE" then
    if !setEq param_values [toL "ptext"] then
      .error (.valueError (NOTE_INVALID_PARAMETER_VALUE ++ toL ": " ++ pyReprSet param_values))
    else .ok ()
  else if param_name = toL "LANGUAGE" then
    if param_values.length ≠ 1 then
      .error (.valueError (NOTE_INVALID_PARAMETER_VALUE ++ toL ": " ++ pyReprSet param_values))
    else firstM validate_language_tag param_values
  else do
    validate_x_name param_name
    if param_values.length ≠ 1 then
      .error (.valueError (NOTE_INVALID_PARAMETER_VALUE ++ toL ": " ++ pyReprSet param_values))
    else validate_param_value (param_values.headD [])

def validate_float (text : List Char) : Except VErr Unit :=
  if !pyFullMatch floatCore text then
    .error (.valueError (NOTE_INVALID_SUB_VALUE ++ toL ", expected float value: " ++ text))
  else .ok ()

def validate_uri (text : List Char) : Except VErr Unit :=
  let parts := urlparse3 text
  if parts.1 = [] || (parts.2.1 = [] && parts.2.2 = []) then
    .error (.valueError NOTE_INVALID_URI)
  else .ok ()

/-!
### Property handlers

Each handler returns the list of warnings it emitted (`warnings.warn`
in the source is a side channel that never affects the outcome) or the
first error raised.  The source initialises `parameters` to `{}` in the
`VcardProperty` constructor, so the `if property_.parameters is not
None` guards are always true and the `else: raise NotImplementedError`
branch of `handle_agent` is unreachable; the embeddings therefore
contain only the then-branches.
-/

def handle_url (p : VcardProperty) : Except VErr (List (List Char)) := do
  _expect_no_parameters p
  _expect_value_count p.values 1
  validate_uri (← sub00 p.values)
  pure []

/-- Inner `for value in property_.values` loop of `handle_agent`.  Its
sub-value-count message quotes `len(property_.values[0])`, passed in as
`len0`. -/
def agentValuesLoop (len0 : Nat) : List (List (List Char)) → Except VErr Unit
  | [] => .ok ()
  | value :: rest => do
    if value.length ≠ 1 then
      .error (.itemCountError (NOTE_INVALID_SUB_VALUE_COUNT ++ toL ": " ++ natToL len0
        ++ toL " (expected 1)"))
    else do
      validate_uri (← pyHead value)
      agentValuesLoop len0 rest

def handle_agent (p : VcardProperty) : Except VErr (List (List Char)) := do
  firstM
    (fun e =>
      if pyUpper e.1 ≠ toL "VALUE" then
        .error (.nameError (NOTE_INVALID_PARAMETER_NAME ++ toL ": " ++ pyReprSet e.2))
      else if !setEq e.2 [toL "uri"] then
        .error (.valueError (NOTE_INVALID_PARAMETER_VALUE ++ toL ": " ++ pyReprSet e.2))
      else .ok ())
    p.parameters
  _expect_value_count p.values 1
  agentValuesLoop ((p.values.headD []).length) p.values
  pure []

def handle_role (p : VcardProperty) : Except VErr (List (List Char)) := do
  firstM validate_text_parameter p.parameters
  _expect_value_count p.values 1
  let v0 ← pyHead p.values
  _expect_sub_value_count v0 1
  validate_text_value (← pyHead v0)
  pure []

def handle_title (p : VcardProperty) : Except VErr (List (List Char)) := do
  firstM validate_text_parameter p.parameters
  _expect_value_count p.values 1
  let v0 ← pyHead p.values
  _expect_sub_value_count v0 1
  validate_text_value (← pyHead v0)
  pure []

/-- Inner `for value in property_.values` loop of `handle_geo`. -/
def geoValuesLoop (len0 : Nat) : List (List (List Char)) → Except VErr Unit
  | [] => .ok ()
  | value :: rest => do
    if value.length ≠ 1 then
      .error (.itemCountError (NOTE_INVALID_SUB_VALUE_COUNT ++ toL ": " ++ natToL len0
        ++ toL " (expected 1)"))
    else do
      validate_float (← pyHead value)
      geoValuesLoop len0 rest

def handle_geo (p : VcardProperty) : Except VErr (List (List Char)) := do
  _expect_no_parameters p
  _expect_value_count p.values 2
  geoValuesLoop ((p.values.headD []).length) p.values
  pure []

def handle_tz (p : VcardProperty) : Except VErr (List (List Char)) := do
  _expect_no_parameters p
  _expect_value_count p.values 1
  let v0 ← pyHead p.values
  _expect_sub_value_count v0 1
  validate_time_zone (← pyHead v0)
  pure []

def handle_mailer (p : VcardProperty) : Except VErr (List (List Char)) := do
  _expect_no_parameters p
  _expect_value_count p.values 1
  _expect_value_count (← pyHead p.values) 1
  validate_text_value (← sub00 p.values)
  pure []

/-- Parameter loop of `handle_email`: an unknown `TYPE` value only
warns; a parameter name other than `TYPE` is a name error. -/
def emailParamsLoop (vals : List (List (List Char))) :
    ParamMap → Except VErr (List (List Char))
  | [] => .ok []
  | (pname, pvals) :: rest =>
    if pyUpper pname = toL "TYPE" then do
      let ws1 := (pvals.filter (fun v => !EMAIL_TYPE_VALUES.contains (pyLower v))).map
        (fun v => WARN_INVALID_EMAIL_TYPE ++ toL ": " ++ v)
      let ws2 := if pvals.map pyLower = [toL "internet"] then
          [WARN_DEFAULT_TYPE_VALUE ++ toL ": " ++ pyReprValues vals] else []
      let ws ← emailParamsLoop vals rest
      pure (ws1 ++ ws2 ++ ws)
    else .error (.nameError (NOTE_INVALID_PARAMETER_NAME ++ toL ": " ++ pname))

def handle_email (p : VcardProperty) : Except VErr (List (List Char)) := do
  let ws ← emailParamsLoop p.values p.parameters
  _expect_value_count p.values 1
  let v0 ← pyHead p.values
  _expect_sub_value_count v0 1
  validate_text_value (← pyHead v0)
  pure ws

/-- Parameter loop of `handle_tel`: an unknown `TYPE` value is a hard
value error (unlike EMAIL). -/
def telParamsLoop (vals : List (List (List Char))) :
    ParamMap → Except VErr (List (List Char))
  | [] => .ok []
  | (pname, pvals) :: rest =>
    if pyUpper pname = toL "TYPE" then
      match pvals.find? (fun v => !TELEPHONE_TYPE_VALUES.contains (pyLower v)) with
      | some bad =>
        .error (.valueError (NOTE_INVALID_PARAMETER_VALUE ++ toL ": " ++ bad))
      | none => do
        let w := if pvals.map pyLower = [toL "voice"] then
            [WARN_DEFAULT_TYPE_VALUE ++ toL ": " ++ pyReprValues vals] else []
        let ws ← telParamsLoop vals rest
        pure (w ++ ws)
    else .error (.nameError (NOTE_INVALID_PARAMETER_NAME ++ toL ": " ++ pname))

def handle_tel (p : VcardProperty) : Except VErr (List (List Char)) := do
  let ws ← telParamsLoop p.values p.parameters
  _expect_value_count p.values 1
  _expect_sub_value_count (← pyHead p.values) 1
  pure ws

/-- Parameter loop shared by `handle_label` and `handle_adr`: `TYPE`
values are checked (case-sensitively) against the label vocabulary; the
RFC default set warns; any other parameter name triggers a full
text-parameter pass over all parameters. -/
def labelParamsLoop (allParams : ParamMap) (vals : List (List (List Char))) :
    ParamMap → Except VErr (List (List Char))
  | [] => .ok []
  | (pname, pvals) :: rest =>
    if pyUpper pname = toL "TYPE" then
      match pvals.find? (fun v => !LABEL_TYPE_VALUES.contains v) with
      | some bad =>
        .error (.valueError (NOTE_INVALID_PARAMETER_VALUE ++ toL ": " ++ bad))
      | none => do
        let w := if setEq pvals [toL "intl", toL "postal", toL "parcel", toL "work"] then
            [WARN_DEFAULT_TYPE_VALUE ++ toL ": " ++ pyReprValues vals] else []
        let ws ← labelParamsLoop allParams vals rest
        pure (w ++ ws)
    else do
      firstM validate_text_parameter allParams
      labelParamsLoop allParams vals rest

def handle_label (p : VcardProperty) : Except VErr (List (List Char)) := do
  let ws ← labelParamsLoop p.parameters p.values p.parameters
  _expect_value_count p.values 1
  let v0 ← pyHead p.values
  _expect_sub_value_count v0 1
  validate_text_value (← pyHead v0)
  pure ws

def handle_adr (p : VcardProperty) : Except VErr (List (List Char)) := do
  _expect_value_count p.values 7
  labelParamsLoop p.parameters p.values p.parameters

def handle_bday (p : VcardProperty) : Except VErr (List (List Char)) := do
  _expect_no_parameters p
  _expect_value_count p.values 1
  let v0 ← pyHead p.values
  _expect_sub_value_count v0 1
  validate_date (← pyHead v0)
  pure []

/-- Parameter loop of `handle_photo_logo` (the source's
`if/elif` chain; `TYPE` with `ENCODING` present falls through with no
action). -/
def photoParamsLoop (p : VcardProperty) : ParamMap → Except VErr Unit
  | [] => .ok ()
  | (pname, pvals) :: rest => do
    let up := pyUpper pname
    if up = toL "ENCODING" then do
      _expect_parameter_values pvals [toL "b"]
      _expect_no_parameter p.parameters up (toL "VALUE")
    else if up = toL "TYPE" && !hasKey p.parameters (toL "ENCODING") then
      .error (.itemCountError (NOTE_MISSING_PARAMETER ++ toL ": " ++ toL "ENCODING"))
    else if up = toL "VALUE" then do
      _expect_parameter_values pvals [toL "uri"]
      validate_uri (← sub00 p.values)
    else if !(up = toL "ENCODING" || up = toL "TYPE" || up = toL "VALUE") then
      .error (.nameError (NOTE_INVALID_PARAMETER_NAME ++ toL ": " ++ pname))
    else .ok ()
    photoParamsLoop p rest

def handle_photo_logo (p : VcardProperty) : Except VErr (List (List Char)) := do
  _expect_parameters p
  _expect_value_count p.values 1
  _expect_sub_value_count (← pyHead p.values) 1
  photoParamsLoop p p.parameters
  pure []

def handle_nickname (p : VcardProperty) : Except VErr (List (List Char)) := do
  firstM validate_text_parameter p.parameters
  _expect_value_count p.values 1
  pure []

/-- Inner name loop of `handle_n`: validates each sub-value as text and
warns when a name contains a space and is not the sole content of the
whole property. -/
def nInnerLoop (joined : List Char) : List (List Char) → Except VErr (List (List Char))
  | [] => .ok []
  | name :: rest => do
    validate_text_value name
    let w := if name.contains ' ' && joined ≠ name then
        [WARN_MULTIPLE_NAMES ++ toL ": " ++ name] else []
    let ws ← nInnerLoop joined rest
    pure (w ++ ws)

def nOuterLoop (joined : List Char) : List (List (List Char)) → Except VErr (List (List Char))
  | [] => .ok []
  | names :: rest => do
    let ws1 ← nInnerLoop joined names
    let ws2 ← nOuterLoop joined rest
    pure (ws1 ++ ws2)

def handle_n (p : VcardProperty) : Except VErr (List (List Char)) := do
  firstM validate_text_parameter p.parameters
  _expect_value_count p.values 5
  nOuterLoop ((p.values.map (fun names => names.flatten)).flatten) p.values

def handle_version (p : VcardProperty) : Except VErr (List (List Char)) := do
  _expect_no_parameters p
  _expect_value_count p.values 1
  let v ← sub00 p.values
  if v ≠ toL "3.0" then
    .error (.valueError (NOTE_INVALID_VALUE ++ toL ": " ++ v ++ toL " (expected \"3.0\")"))
  else pure []

def handle_fn (p : VcardProperty) : Except VErr (List (List Char)) := do
  firstM validate_text_parameter p.parameters
  _expect_value_count p.values 1
  let v0 ← pyHead p.values
  _expect_sub_value_count v0 1
  validate_text_value (← pyHead v0)
  pure []

def sourceParamsLoop (p : VcardProperty) : ParamMap → Except VErr Unit
  | [] => .ok ()
  | (pname, pvals) :: rest => do
    if pyUpper pname = toL "VALUE" then do
      if !setEq pvals [toL "uri"] then
        .error (.valueError (NOTE_INVALID_PARAMETER_VALUE ++ toL ": " ++ pyReprSet pvals))
      else if hasKey p.parameters (toL "CONTEXT") then
        .error (.valueError (NOTE_MISMATCH_PARAMETER ++ toL ": " ++ toL "VALUE"
          ++ toL " and " ++ toL "CONTEXT"))
      else .ok ()
    else if pyUpper pname = toL "CONTEXT" then do
      if !setEq pvals [toL "word"] then
        .error (.valueError (NOTE_INVALID_PARAMETER_VALUE ++ toL ": " ++ pyReprSet pvals))
      else if hasKey p.parameters (toL "VALUE") then
        .error (.valueError (NOTE_MISMATCH_PARAMETER ++ toL ": " ++ toL "VALUE"
          ++ toL " and " ++ toL "CONTEXT"))
      else .ok ()
    else
      .error (.nameError (NOTE_INVALID_PARAMETER_NAME ++ toL ": " ++ pname))
    sourceParamsLoop p rest

def handle_source (p : VcardProperty) : Except VErr (List (List Char)) := do
  _expect_parameters p
  sourceParamsLoop p p.parameters
  pure []

def handle_profile (p : VcardProperty) : Except VErr (List (List Char)) := do
  _expect_no_parameters p
  _expect_value_count p.values 1
  let v0 ← pyHead p.values
  _expect_sub_value_count v0 1
  let v ← pyHead v0
  if pyLower v ≠ toL "vcard" then
    .error (.valueError (NOTE_INVALID_VALUE ++ toL ": " ++ v ++ toL " (expected \"VCARD\")"))
  else do
    validate_text_value v
    pure []

def handle_name (p : VcardProperty) : Except VErr (List (List Char)) := do
  _expect_no_parameters p
  _expect_value_count p.values 1
  let v0 ← pyHead p.values
  _expect_sub_value_count v0 1
  validate_text_value (← pyHead v0)
  pure []

def handle_begin_end (p : VcardProperty) : Except VErr (List (List Char)) := do
  _expect_no_parameters p
  _expect_value_count p.values 1
  let v0 ← pyHead p.values
  _expect_sub_value_count v0 1
  let v ← pyHead v0
  if pyLower v ≠ toL "vcard" then
    .error (.valueError (NOTE_INVALID_VALUE ++ toL ": " ++ v ++ toL " (expected \"VCARD\")"))
  else pure []

/-- The dispatch table of `validate_vcard_property`: a property name
without a registered handler passes through unvalidated (`except
KeyError: pass`). -/
def validate_vcard_property (p : VcardProperty) : Except VErr (List (List Char)) :=
  let n := pyUpper p.name
  if n = toL "ADR" then handle_adr p
  else if n = toL "AGENT" then handle_agent p
  else if n = toL "BDAY" then handle_bday p
  else if n = toL "BEGIN" then handle_begin_end p
  else if n = toL "EMAIL" then handle_email p
  else if n = toL "END" then handle_begin_end p
  else if n = toL "FN" then handle_fn p
  else if n = toL "GEO" then handle_geo p
  else if n = toL "LABEL" then handle_label p
  else if n = toL "LOGO" then handle_photo_logo p
  else if n = toL "MAILER" then handle_mailer p
  else if n = toL "N" then handle_n p
  else if n = toL "NAME" then handle_name p
  else if n = toL "NICKNAME" then handle_nickname p
  else if n = toL "PHOTO" then handle_photo_logo p
  else if n = toL "PROFILE" then handle_profile p
  else if n = toL "ROLE" then handle_role p
  else if n = toL "SOURCE" then handle_source p
  else if n = toL "TEL" then handle_tel p
  else if n = toL "TITLE" then handle_title p
  else if n = toL "TZ" then handle_tz p
  else if n = toL "URL" then handle_url p
  else if n = toL "VERSION" then handle_version p
  else .ok []

/-!
## `vcard_validator.py` — unfolding, groups, decomposition, driver
-/

/-- The line boundaries recognised by Python `str.splitlines`. -/
def isPyLineBreak (c : Char) : Bool :=
  c = '\n' || c = '\r' || c = Char.ofNat 11 || c = Char.ofNat 12 ||
    c = Char.ofNat 28 || c = Char.ofNat 29 || c = Char.ofNat 30 ||
    c = Char.ofNat 133 || c = Char.ofNat 8232 || c = Char.ofNat 8233

def splitlinesGo (keepends : Bool) : List Char → List Char → List (List Char)
  | [], acc => if acc = [] then [] else [acc.reverse]
  | [c], acc =>
    if isPyLineBreak c then [acc.reverse ++ (if keepends then [c] else [])]
    else [(c :: acc).reverse]
  | c :: c2 :: rest, acc =>
    if c = '\r' && c2 = '\n' then
      (acc.reverse ++ (if keepends then [c, c2] else [])) :: splitlinesGo keepends rest []
    else if isPyLineBreak c then
      (acc.reverse ++ (if keepends then [c] else [])) :: splitlinesGo keepends (c2 :: rest) []
    else splitlinesGo keepends (c2 :: rest) (c :: acc)

/-- Python `str.splitlines(keepends)`. -/
def pySplitlines (keepends : Bool) (t : List Char) : List (List Char) :=
  splitlinesGo keepends t []

/-- One iteration of the `unfold_vcard_lines` loop body: `index` is the
current index, `prev` the previous raw line (`lines[index - 1]`, `none`
at index 0), `acc` the accumulated property lines, `ws` the accumulated
warnings.  Returns the updated `(acc, ws)`. -/
def unfoldStep (line : List Char) (index : Nat) (prev : Option (List Char))
    (acc ws : List (List Char)) : Except VErr (List (List Char) × List (List Char)) :=
  if !NEWLINE_CHARACTERS.isSuffixOf line then
    .error (.lineError NOTE_INVALID_LINE_SEPARATOR)
  else
    let ws := ws ++ (if line.length > VCARD_LINE_MAX_LENGTH_RAW then
      [toL "Long line in vCard: " ++ line] else [])
    if line.head? = some ' ' then
      if index = 0 then .error (.lineError NOTE_CONTINUATION_AT_START)
      else
        let ws := ws ++
          (match prev with
           | some pl =>
             if pl.length < VCARD_LINE_MAX_LENGTH_RAW then
               [toL "Short folded line at line " ++ natToL (index - 1)]
             else if line = SPACE_CHARACTER :: NEWLINE_CHARACTERS then
               [toL "Empty folded line at line " ++ natToL index]
             else []
           | none => [])
        match acc.getLast? with
        | none => .error .indexError
        | some lastP =>
          .ok (acc.dropLast ++
            [lastP.take (lastP.length - NEWLINE_CHARACTERS.length) ++ line.drop 1], ws)
    else .ok (acc ++ [line], ws)

def unfoldGo :
    List (List Char) → Nat → Option (List Char) → List (List Char) → List (List Char) →
      Except VErr (List (List Char) × List (List Char))
  | [], _, _, acc, ws => .ok (acc, ws)
  | line :: rest, index, prev, acc, ws =>
    match unfoldStep line index prev acc ws with
    | .error e => .error e
    | .ok (acc2, ws2) => unfoldGo rest (index + 1) (some line) acc2 ws2

def unfold_vcard_lines (lines : List (List Char)) :
    Except VErr (List (List Char) × List (List Char)) :=
  unfoldGo lines 0 none [] []

/-- The group regex `^([ID]*)\.` of `get_vcard_group`: since `.` is not
an identifier character the greedy star cannot be shortened into a
different successful match, so the regex matches exactly when the
maximal identifier prefix is followed by a literal dot, capturing that
prefix. -/
def groupMatch (line : List Char) : Option (List Char) :=
  let p := line.takeWhile (ID_CHARACTERS.contains ·)
  if (line.drop p.length).head? = some '.' then some p else none

def groupCheckAll (g : List Char) : List (List Char) → Except VErr Unit
  | [] => .ok ()
  | line :: rest =>
    match groupMatch line with
    | none => .error (.lineError NOTE_MISSING_GROUP)
    | some g2 =>
      if g2 ≠ g then
        .error (.nameError (NOTE_MISMATCH_GROUP ++ toL ": " ++ g2 ++ toL " != " ++ g))
      else groupCheckAll g rest

def groupCheckNone : List (List Char) → Except VErr Unit
  | [] => .ok ()
  | line :: rest =>
    match groupMatch line with
    | some g2 =>
      .error (.nameError (NOTE_MISMATCH_GROUP ++ toL ": " ++ g2 ++ toL " != None"))
    | none => groupCheckNone rest

def get_vcard_group (lines : List (List Char)) : Except VErr (Option (List Char)) :=
  match lines with
  | [] => .error .indexError
  | line0 :: _ =>
    match groupMatch line0 with
    | some g =>
      if g.length = 0 then .error (.lineError NOTE_DOT_AT_LINE_START)
      else do
        groupCheckAll g lines
        pure (some g)
    | none => do
      groupCheckNone lines
      pure none

/-- `remove_vcard_groups` strips `line[len(group):]` from every line —
only the token, not the dot (`if group:` is also false for the empty
string). -/
def remove_vcard_groups (lines : List (List Char)) (group : Option (List Char)) :
    List (List Char) :=
  match group with
  | some g => if g ≠ [] then lines.map (fun line => line.drop g.length) else lines
  | none => lines

/-- The CPython messages of the `ValueError` raised by unpacking a
list of length `n` into two names. -/
def unpackMsg (n : Nat) : List Char :=
  if n < 2 then
    toL "not enough values to unpack (expected 2, got " ++ natToL n ++ toL ")"
  else toL "too many values to unpack (expected 2)"

/-- The parameter-name regex `^[ID]+$`. -/
def idPlusCore (t : List Char) : Bool := t ≠ [] && t.all (ID_CHARACTERS.contains ·)

/-- The property-name extension regex `^X-[ID]+$` with `re.IGNORECASE`
(only the leading `X` is case-variable; the identifier class already
contains both cases). -/
def xNameCoreCI (t : List Char) : Bool :=
  match t with
  | x :: '-' :: rest =>
    (x = 'X' || x = 'x') && rest ≠ [] && rest.all (ID_CHARACTERS.contains ·)
  | _ => false

/-- The sub-value regex `^[VALUE]*$`. -/
def subValueCore (t : List Char) : Bool := t.all (VALUE_CHARACTERS.contains ·)

def get_vcard_property_param_values (values_string : List Char) :
    Except VErr (List (List Char)) :=
  let values := pySet (split_unescaped values_string ',')
  match values.find? (fun v => !pyFullMatch paramValueCore v) with
  | some bad => .error (.valueError (NOTE_INVALID_VALUE ++ toL ": " ++ bad))
  | none => .ok values

/-- The part of `get_vcard_property_parameter` after the two-way
unpacking has succeeded. -/
def parameterFromParts (param_name values_string : List Char) :
    Except VErr (List Char × List (List Char)) := do
  let values ← get_vcard_property_param_values values_string
  if !pyFullMatch idPlusCore param_name then
    .error (.nameError (NOTE_INVALID_PARAMETER_NAME ++ toL ": " ++ param_name))
  else .ok (param_name, values)

def get_vcard_property_parameter (param_string : List Char) :
    Except VErr (List Char × List (List Char)) :=
  match split_unescaped param_string '=' with
  | [param_name, values_string] => parameterFromParts param_name values_string
  | parts =>
    .error (.itemCountError (NOTE_MISSING_PARAM_VALUE ++ toL ": " ++ unpackMsg parts.length))

def paramsLoop : List (List Char) → ParamMap → Except VErr ParamMap
  | [], params => .ok params
  | s :: rest, params => do
    let parameter ← get_vcard_property_parameter s
    paramsLoop rest (mapSetUnion params (pyUpper parameter.1) parameter.2)

def get_vcard_property_params (params_string : List Char) : Except VErr ParamMap :=
  if params_string = [] then .ok []
  else paramsLoop (split_unescaped params_string ';') []

def get_vcard_property_sub_values (value_string : List Char) :
    Except VErr (List (List Char)) :=
  let sub_values := split_unescaped value_string ','
  match sub_values.find? (fun v => !pyFullMatch subValueCore v) with
  | some bad => .error (.valueError (NOTE_INVALID_SUB_VALUE ++ toL ": " ++ bad))
  | none => .ok sub_values

def valuesLoop : List (List Char) → Except VErr (List (List (List Char)))
  | [] => .ok []
  | sub :: rest => do
    let v ← get_vcard_property_sub_values sub
    let vs ← valuesLoop rest
    pure (v :: vs)

def get_vcard_property_values (values_string : List Char) :
    Except VErr (List (List (List Char))) :=
  let values_string := dropEnd values_string NEWLINE_CHARACTERS.length
  valuesLoop (split_unescaped values_string ';')

/-- The part of `get_vcard_property` after the colon split: the
name-and-parameters segment and the (re-joined) values segment. -/
def propertyFromParts (property_string values_string : List Char) :
    Except VErr (VcardProperty × List (List Char)) :=
  match split_unescaped property_string ';' with
  | [] => .error .indexError
  | property_name :: params_rest =>
    if !ALL_PROPERTIES.contains (pyUpper property_name)
        && !pyFullMatch xNameCoreCI property_name then
      .error (.nameError (NOTE_INVALID_PROPERTY_NAME ++ toL ": " ++ property_name))
    else do
      let property_values ← get_vcard_property_values values_string
      let parameters ←
        if params_rest.length ≠ 0 then get_vcard_property_params (joinWith [';'] params_rest)
        else pure []
      let property : VcardProperty := ⟨property_name, property_values, parameters⟩
      let ws ← validate_vcard_property property
      pure (property, ws)

def get_vcard_property (property_line : List Char) :
    Except VErr (VcardProperty × List (List Char)) :=
  let property_parts := split_unescaped property_line ':'
  if property_parts.length < 2 then
    .error (.itemCountError (NOTE_MISSING_VALUE_STRING ++ toL ": " ++ property_line))
  else propertyFromParts (property_parts.headD []) (joinWith [':'] property_parts.tail)

def propsLoop : List (List Char) → Except VErr (List VcardProperty × List (List Char))
  | [] => .ok ([], [])
  | line :: rest =>
    if line ≠ NEWLINE_CHARACTERS then do
      let (p, ws) ← get_vcard_property line
      let (ps, ws2) ← propsLoop rest
      pure (p :: ps, ws ++ ws2)
    else propsLoop rest

def get_vcard_properties (lines : List (List Char)) :
    Except VErr (List VcardProperty × List (List Char)) := do
  let (properties, ws) ← propsLoop lines
  match MANDATORY_PROPERTIES.find?
      (fun m => !(properties.map (fun q => pyUpper q.name)).contains m) with
  | some missing =>
    .error (.itemCountError (NOTE_MISSING_PROPERTY ++ toL ": " ++ missing))
  | none => .ok (properties, ws)

/-- The `VCard` object: original text, optional group, properties, and
the warnings collected during construction. -/
structure VCardRec where
  text : List Char
  group : Option (List Char)
  properties : List VcardProperty
  warnings : List (List Char)
  deriving DecidableEq, Repr

/-- `VCard.__init__` (the `None` input, impossible for a `List Char`,
and the empty string are both covered by the empty check). -/
def VCard_init (text : List Char) : Except VErr VCardRec :=
  if text = [] then .error (.base NOTE_EMPTY_VCARD)
  else do
    let (lines, ws1) ← unfold_vcard_lines (pySplitlines true text)
    let group ← get_vcard_group lines
    let lines := remove_vcard_groups lines group
    let (properties, ws2) ← get_vcard_properties lines
    pure ⟨text, group, properties, ws1 ++ ws2⟩

/-- The chunking loop of `validate_file`: accumulate raw lines and
validate a record exactly when a line equals `"END:VCARD\r\n"`
character for character.  Returns the first uncaught record error (if
any) and the text accumulated when the loop stopped. -/
def validateLoop : List (List Char) → List Char → Option VErr × List Char
  | [], acc => (none, acc)
  | line :: rest, acc =>
    let acc := acc ++ line
    if line = toL "END:VCARD" ++ NEWLINE_CHARACTERS then
      match VCard_init acc with
      | .error e => (some e, acc)
      | .ok _ => validateLoop rest []
    else validateLoop rest acc

def linesRemainMsg (filename leftover : List Char) : List Char :=
  toL "Could not process entire " ++ filename ++ toL " - "
    ++ natToL (pySplitlines false leftover).length ++ toL " lines remain"

/-- `validate_file` from the point where the file contents have been
read: returns the report string, or `Except.error` for an exception the
driver's `except VCardError` does not catch (which would crash the
Python process). -/
def validate_file_contents (filename contentsText : List Char) : Except VErr (List Char) :=
  match validateLoop (pySplitlines true contentsText) [] with
  | (some e, leftover) =>
    if e.isVCardError then
      let result := e.render
      if leftover ≠ [] && result = [] then .ok (result ++ linesRemainMsg filename leftover)
      else .ok result
    else .error e
  | (none, leftover) =>
    if leftover ≠ [] then .ok (linesRemainMsg filename leftover) else .ok []

/-!
## Lemmas about the pipeline
-/

/-- The raw line preceding the position just after `xs` (the value the
`prev` argument of `unfoldGo` takes there). -/
def lastRaw (xs : List (List Char)) (prev : Option (List Char)) : Option (List Char) :=
  match xs.getLast? with
  | some l => some l
  | none => prev

theorem lastRaw_cons (line : List Char) (rest : List (List Char)) (prev : Option (List Char)) :
    lastRaw (line :: rest) prev = lastRaw rest (some line) := by
  unfold lastRaw
  cases h : rest.getLast? with
  | some l => rw [List.getLast?_cons, h]; rfl
  | none =>
    have : rest = [] := by
      cases rest with
      | nil => rfl
      | cons a as => simp [List.getLast?_eq_getLast] at h
    subst this
    rfl

/-- The unfolding loop processes a concatenation sequentially. -/
theorem unfoldGo_append (ys : List (List Char)) :
    ∀ (xs : List (List Char)) (i : Nat) (prev : Option (List Char))
      (acc ws : List (List Char)),
      unfoldGo (xs ++ ys) i prev acc ws =
        match unfoldGo xs i prev acc ws with
        | .error e => .error e
        | .ok (ps, w) => unfoldGo ys (i + xs.length) (lastRaw xs prev) ps w := by
  intro xs
  induction xs with
  | nil =>
    intro i prev acc ws
    simp [unfoldGo, lastRaw]
  | cons line rest ih =>
    intro i prev acc ws
    rw [List.cons_append]
    have hunf : ∀ (zs : List (List Char)),
        unfoldGo (line :: zs) i prev acc ws =
          match unfoldStep line i prev acc ws with
          | Except.error e => Except.error e
          | Except.ok (acc2, ws2) => unfoldGo zs (i + 1) (some line) acc2 ws2 :=
      fun _ => rfl
    rw [hunf (rest ++ ys), hunf rest]
    cases hstep : unfoldStep line i prev acc ws with
    | error e => rfl
    | ok res =>
      match res with
      | (acc2, ws2) =>
        show unfoldGo (rest ++ ys) (i + 1) (some line) acc2 ws2 =
          match unfoldGo rest (i + 1) (some line) acc2 ws2 with
          | Except.error e => Except.error e
          | Except.ok (ps, w) =>
            unfoldGo ys (i + (line :: rest).length) (lastRaw (line :: rest) prev) ps w
        rw [ih (i + 1) (some line) acc2 ws2, lastRaw_cons]
        have harith : i + 1 + rest.length = i + (line :: rest).length := by
          simp [List.length_cons]
          omega
        rw [harith]

/-- A run of the chunking loop over lines none of which is the exact
terminator: no record is ever validated and all text accumulates. -/
theorem validateLoop_no_end :
    ∀ (ls : List (List Char)), (∀ l ∈ ls, l ≠ toL "END:VCARD" ++ NEWLINE_CHARACTERS) →
      ∀ acc, validateLoop ls acc = (none, acc ++ ls.flatten) := by
  intro ls
  induction ls with
  | nil => intro _ acc; simp [validateLoop]
  | cons line rest ih =>
    intro h acc
    have hline : line ≠ toL "END:VCARD" ++ NEWLINE_CHARACTERS := h line (by simp)
    show (if line = toL "END:VCARD" ++ NEWLINE_CHARACTERS then _ else
      validateLoop rest (acc ++ line)) = _
    rw [if_neg hline, ih (fun l hl => h l (by simp [hl])) (acc ++ line)]
    simp [List.append_assoc]

/-- `splitlines(True)` partitions the text: the pieces concatenate back
to the input. -/
theorem splitlinesGo_flatten :
    ∀ (n : Nat) (t : List Char), t.length ≤ n →
      ∀ (acc : List Char), (splitlinesGo true t acc).flatten = acc.reverse ++ t := by
  intro n
  induction n with
  | zero =>
    intro t ht acc
    have : t = [] := List.length_eq_zero.mp (Nat.le_zero.mp ht)
    subst this
    by_cases hacc : acc = []
    · simp [splitlinesGo, hacc]
    · simp [splitlinesGo, hacc]
  | succ n ih =>
    intro t ht acc
    match t with
    | [] =>
      by_cases hacc : acc = []
      · simp [splitlinesGo, hacc]
      · simp [splitlinesGo, hacc]
    | [c] =>
      by_cases hc : isPyLineBreak c
      · simp [splitlinesGo, hc]
      · simp [splitlinesGo, hc]
    | c :: c2 :: rest =>
      have hlen : rest.length ≤ n ∧ (c2 :: rest).length ≤ n := by
        simp at ht ⊢
        omega
      have heq : splitlinesGo true (c :: c2 :: rest) acc =
          if c = '\r' && c2 = '\n' then
            (acc.reverse ++ [c, c2]) :: splitlinesGo true rest []
          else if isPyLineBreak c then
            (acc.reverse ++ [c]) :: splitlinesGo true (c2 :: rest) []
          else splitlinesGo true (c2 :: rest) (c :: acc) := rfl
      rw [heq]
      by_cases hcrlf : (c = '\r' && c2 = '\n') = true
      · rw [if_pos hcrlf]
        simp only [Bool.and_eq_true, decide_eq_true_eq] at hcrlf
        obtain ⟨hc, hc2⟩ := hcrlf
        subst hc
        subst hc2
        rw [List.flatten_cons, ih rest hlen.1 []]
        simp
      · rw [if_neg hcrlf]
        by_cases hbr : isPyLineBreak c = true
        · rw [if_pos hbr, List.flatten_cons, ih (c2 :: rest) hlen.2 []]
          simp
        · rw [if_neg hbr, ih (c2 :: rest) hlen.2 (c :: acc)]
          simp

/-- `pySplitlines true` partitions the text. -/
theorem pySplitlines_flatten (t : List Char) : (pySplitlines true t).flatten = t :=
  splitlinesGo_flatten t.length t (le_refl _) []

theorem except_bind_error {e : Type} {a b : Type} (x : e) (f : a → Except e b) :
    (Except.error x : Except e a) >>= f = Except.error x := rfl

theorem except_bind_ok {e : Type} {a b : Type} (x : a) (f : a → Except e b) :
    (Except.ok x : Except e a) >>= f = f x := rfl

theorem except_pure {e : Type} {a : Type} (x : a) :
    (pure x : Except e a) = Except.ok x := rfl

/-!
## Concrete records used by the claims
-/

def isOk {α : Type} : Except VErr α → Bool
  | .ok _ => true
  | .error _ => false

/-- The minimal valid record of the spec. -/
def minimalText : List Char :=
  toL "BEGIN:VCARD\r\nVERSION:3.0\r\nFN:John Doe\r\nN:Doe;John;;;\r\nEND:VCARD\r\n"

/-- The minimal record with every line prefixed by the group `g.`. -/
def groupedMinimalText : List Char :=
  toL "g.BEGIN:VCARD\r\ng.VERSION:3.0\r\ng.FN:John Doe\r\ng.N:Doe;John;;;\r\ng.END:VCARD\r\n"

/-- The minimal record with only the first line prefixed by `g.`. -/
def mixedGroupText : List Char :=
  toL "g.BEGIN:VCARD\r\nVERSION:3.0\r\nFN:John Doe\r\nN:Doe;John;;;\r\nEND:VCARD\r\n"

/-- The minimal record with a lowercase END line. -/
def lowerEndText : List Char :=
  toL "BEGIN:VCARD\r\nVERSION:3.0\r\nFN:John Doe\r\nN:Doe;John;;;\r\nend:vcard\r\n"

/-!
## Claim theorems
-/

instance {e a : Type} [DecidableEq e] [DecidableEq a] : DecidableEq (Except e a)
  | .error x, .error y =>
    if h : x = y then .isTrue (by rw [h]) else .isFalse (by simp [h])
  | .error _, .ok _ => .isFalse (by simp)
  | .ok _, .error _ => .isFalse (by simp)
  | .ok x, .ok y =>
    if h : x = y then .isTrue (by rw [h]) else .isFalse (by simp [h])

set_option maxHeartbeats 2000000 in
/-- C1: the ungrouped minimal record validates, but the fully
`g.`-grouped equivalent does **not** validate identically: because
`remove_vcard_groups` strips only `len(group)` characters (the token
without the dot, contradicting its own docstring "Lines without groups
and dot separator"), every line keeps a leading dot and property
decomposition rejects the name `.BEGIN`.  The partially grouped record
does fail with the missing-group error, as the claim says. -/
theorem C1_grouped_record_rejected :
    isOk (VCard_init minimalText) = true ∧
    VCard_init groupedMinimalText =
      .error (.nameError (NOTE_INVALID_PROPERTY_NAME ++ toL ": " ++ toL ".BEGIN")) ∧
    VCard_init mixedGroupText = .error (.lineError NOTE_MISSING_GROUP) :=
  ⟨by decide, by decide, by decide⟩

set_option maxHeartbeats 2000000 in
/-- C3: the five-line minimal record (CRLF-terminated lines)
validates: `VCard` construction succeeds, and the file-level driver
over exactly that text returns an empty report, for every file name. -/
theorem C3_minimal_record_validates :
    isOk (VCard_init minimalText) = true ∧
    ∀ filename, validate_file_contents filename minimalText = .ok [] := by
  refine ⟨by decide, fun filename => ?_⟩
  have h : validateLoop (pySplitlines true minimalText) [] = (none, []) := by decide
  simp only [validate_file_contents, h]
  rfl

/-- C9 counterexample: the file-level driver given an empty file
returns the empty (success) report — the chunking loop never runs, so
the empty-record error is never raised, contradicting the claim that
the driver "reports this error rather than returning an empty (success)
report". -/
theorem C9_empty_file_counterexample :
    validate_file_contents (toL "f") [] = .ok [] := rfl

/-- C9 (amended): constructing a record from empty text is rejected
immediately with the empty-record error before any other parsing, but
the file-level driver given an empty file returns the empty (success)
report, because it only constructs records at `END:VCARD` lines and an
empty file has none. -/
theorem C9_empty_input_amended :
    VCard_init [] = .error (.base NOTE_EMPTY_VCARD) ∧
    ∀ filename, validate_file_contents filename [] = .ok [] :=
  ⟨rfl, fun _ => rfl⟩

/-- C2 counterexample: with the backslash itself as the delimiter the
claim fails: on three backslashes the regex search (greedy pair
matching) finds the backslash at index 2 rather than the first
unescaped one at index 0, so the split is `["\\\\", ""]` — its first
element still contains an unescaped delimiter, and its length is not
the number of unescaped delimiters plus one. -/
theorem C2_backslash_delimiter_counterexample :
    split_unescaped (toL "\\\\\\") '\\' = [toL "\\\\", []] ∧
    (split_unescaped (toL "\\\\\\") '\\').length ≠
      countUnescaped '\\' (toL "\\\\\\") false + 1 ∧
    ∃ e ∈ split_unescaped (toL "\\\\\\") '\\', countUnescaped '\\' e false ≠ 0 :=
  ⟨by decide, by decide, ⟨toL "\\\\", by decide, by decide⟩⟩

/-- C2 (amended): `split_unescaped` is a total function (it never
raises), and for every string and delimiter the elements joined with
the delimiter reconstruct the input.  For every delimiter other than
the backslash, additionally the element count equals the number of
unescaped delimiters plus one and no element contains an unescaped
delimiter; both of the latter fail for the backslash delimiter. -/
theorem C2_split_unescaped_amended (s : List Char) (d : Char) :
    joinWith [d] (split_unescaped s d) = s ∧
    (d ≠ '\\' →
      (split_unescaped s d).length = countUnescaped d s false + 1 ∧
      ∀ e ∈ split_unescaped s d, countUnescaped d e false = 0) :=
  ⟨split_unescaped_join s.length s (le_refl _) d,
   fun hd => ⟨split_unescaped_length hd s.length s (le_refl _),
     split_unescaped_elements hd s.length s (le_refl _)⟩⟩

theorem C2_split_unescaped_amended_witness :
    joinWith [','] (split_unescaped (toL "a,b\\,c,d") ',') = toL "a,b\\,c,d" ∧
    (split_unescaped (toL "a,b\\,c,d") ',').length =
      countUnescaped ',' (toL "a,b\\,c,d") false + 1 ∧
    ∀ e ∈ split_unescaped (toL "a,b\\,c,d") ',', countUnescaped ',' e false = 0 :=
  ⟨(C2_split_unescaped_amended (toL "a,b\\,c,d") ',').1,
   ((C2_split_unescaped_amended (toL "a,b\\,c,d") ',').2 (by decide)).1,
   ((C2_split_unescaped_amended (toL "a,b\\,c,d") ',').2 (by decide)).2⟩

/-- C6 counterexample: a line beginning with a tab is **not** treated
as a continuation (`unfold_vcard_lines` tests only
`line.startswith(" ")`): the tab-led line stays a separate property
line instead of being unfolded into the previous one. -/
theorem C6_tab_continuation_counterexample :
    unfold_vcard_lines [toL "A:b\r\n", toL "\tc\r\n"] =
      .ok ([toL "A:b\r\n", toL "\tc\r\n"], []) ∧
    (toL "\tc\r\n").head? = some '\t' ∧
    ([toL "A:b\r\n", toL "\tc\r\n"] : List (List Char)) ≠ [toL "A:bc\r\n"] :=
  ⟨by decide, by decide, by decide⟩

/-- C6 (amended): only a line beginning with a single **space** is a
continuation (a tab-led line starts a new property line).  A
space-led continuation appended after some lines is unfolded by
dropping the previous accumulated line's terminator and appending the
continuation's content minus the leading space; a space-led first line
fails with the line-format continuation error; a line with any other
first character is appended as a new property line. -/
theorem C6_unfold_amended :
    (∀ (l : List Char) (ls : List (List Char)),
      l.head? = some ' ' → NEWLINE_CHARACTERS.isSuffixOf l →
      unfold_vcard_lines (l :: ls) = .error (.lineError NOTE_CONTINUATION_AT_START)) ∧
    (∀ (ls ps0 : List (List Char)) (lastP : List Char) (ws : List (List Char))
       (cont : List Char),
      unfold_vcard_lines ls = .ok (ps0 ++ [lastP], ws) →
      cont.head? = some ' ' → NEWLINE_CHARACTERS.isSuffixOf cont → ls ≠ [] →
      ∃ ws2, unfold_vcard_lines (ls ++ [cont]) =
        .ok (ps0 ++ [lastP.take (lastP.length - NEWLINE_CHARACTERS.length)
          ++ cont.drop 1], ws2)) ∧
    (∀ (ls ps ws : List (List Char)) (cont : List Char) (c : Char),
      unfold_vcard_lines ls = .ok (ps, ws) →
      cont.head? = some c → c ≠ ' ' → NEWLINE_CHARACTERS.isSuffixOf cont →
      ∃ ws2, unfold_vcard_lines (ls ++ [cont]) = .ok (ps ++ [cont], ws2)) := by
  refine ⟨?_, ?_, ?_⟩
  · intro l ls h1 h2
    have hstep : unfoldStep l 0 none [] [] = .error (.lineError NOTE_CONTINUATION_AT_START) := by
      unfold unfoldStep
      simp [h1, h2]
    show (match unfoldStep l 0 none [] [] with
      | Except.error e => Except.error e
      | Except.ok (a, w) => unfoldGo ls 1 (some l) a w) = _
    rw [hstep]
  · intro ls ps0 lastP ws cont h hc1 hc2 hne
    refine ⟨?w2, ?g2⟩
    case w2 => exact (ws ++ (if cont.length > VCARD_LINE_MAX_LENGTH_RAW then
      [toL "Long line in vCard: " ++ cont] else [])) ++
      (match lastRaw ls none with
       | some pl =>
         if pl.length < VCARD_LINE_MAX_LENGTH_RAW then
           [toL "Short folded line at line " ++ natToL ((0 + ls.length) - 1)]
         else if cont = SPACE_CHARACTER :: NEWLINE_CHARACTERS then
           [toL "Empty folded line at line " ++ natToL (0 + ls.length)]
         else []
       | none => [])
    show unfoldGo (ls ++ [cont]) 0 none [] [] = _
    rw [unfoldGo_append [cont] ls 0 none [] [],
      show unfoldGo ls 0 none [] [] = .ok (ps0 ++ [lastP], ws) from h]
    show (match unfoldStep cont (0 + ls.length) (lastRaw ls none) (ps0 ++ [lastP]) ws with
      | Except.error e => Except.error e
      | Except.ok (a, w) => unfoldGo [] (0 + ls.length + 1) (some cont) a w) = _
    have hidx : ¬ (0 + ls.length = 0) := by
      simpa [List.length_eq_zero] using hne
    unfold unfoldStep
    rw [hc2]
    simp only [Bool.not_true, Bool.false_eq_true, if_false]
    rw [hc1, if_pos rfl, if_neg hidx, List.getLast?_concat, List.dropLast_concat]
    rfl
  · intro ls ps ws cont c h hc1 hcne hc2
    refine ⟨ws ++ (if cont.length > VCARD_LINE_MAX_LENGTH_RAW then
      [toL "Long line in vCard: " ++ cont] else []), ?_⟩
    show unfoldGo (ls ++ [cont]) 0 none [] [] = _
    rw [unfoldGo_append [cont] ls 0 none [] [],
      show unfoldGo ls 0 none [] [] = .ok (ps, ws) from h]
    show (match unfoldStep cont (0 + ls.length) (lastRaw ls none) ps ws with
      | Except.error e => Except.error e
      | Except.ok (a, w) => unfoldGo [] (0 + ls.length + 1) (some cont) a w) = _
    have hhead : ¬ (cont.head? = some ' ') := by
      rw [hc1]
      simp [hcne]
    unfold unfoldStep
    rw [hc2]
    simp only [Bool.not_true, Bool.false_eq_true, if_false]
    rw [if_neg hhead]
    rfl

theorem C6_unfold_amended_witness :
    unfold_vcard_lines [toL " x\r\n", toL "A:b\r\n"] =
      .error (.lineError NOTE_CONTINUATION_AT_START) ∧
    (∃ ws2, unfold_vcard_lines [toL "A:b\r\n", toL " c\r\n"] =
      .ok ([(toL "A:b\r\n").take ((toL "A:b\r\n").length - NEWLINE_CHARACTERS.length)
        ++ (toL " c\r\n").drop 1], ws2)) ∧
    (∃ ws2, unfold_vcard_lines [toL "A:b\r\n", toL "\tc\r\n"] =
      .ok ([toL "A:b\r\n", toL "\tc\r\n"], ws2)) := by
  refine ⟨C6_unfold_amended.1 (toL " x\r\n") [toL "A:b\r\n"] (by decide) (by decide),
    ?_, ?_⟩
  · obtain ⟨ws2, hw⟩ := C6_unfold_amended.2.1 [toL "A:b\r\n"] [] (toL "A:b\r\n") []
      (toL " c\r\n") (by decide) (by decide) (by decide) (by decide)
    exact ⟨ws2, by simpa using hw⟩
  · obtain ⟨ws2, hw⟩ := C6_unfold_amended.2.2 [toL "A:b\r\n"] [toL "A:b\r\n"] []
      (toL "\tc\r\n") '\t' (by decide) (by decide) (by decide) (by decide)
    exact ⟨ws2, by simpa using hw⟩

/-- C4 counterexample: a VERSION property whose single value has two
sub-values, the first being `3.0`, passes validation — the handler
never checks the sub-value count — contradicting the claim's "exactly
one sub-value". -/
theorem C4_version_subvalue_counterexample :
    validate_vcard_property ⟨toL "VERSION", [[toL "3.0", toL "junk"]], []⟩ = .ok [] ∧
    ([toL "3.0", toL "junk"] : List (List Char)).length ≠ 1 :=
  ⟨by decide, by decide⟩

/-- C4 (amended): a parsed VERSION property validates successfully if
and only if it has no parameters and exactly one value whose **first**
sub-value literally equals `3.0` — the sub-value count is not checked.
A VERSION value of `2.1` fails with a value error citing the expected
`3.0`. -/
theorem C4_version_rule_amended :
    (∀ (values : List (List (List Char))) (params : ParamMap),
      validate_vcard_property ⟨toL "VERSION", values, params⟩ = .ok [] ↔
        (params = [] ∧ ∃ rest, values = [toL "3.0" :: rest])) ∧
    validate_vcard_property ⟨toL "VERSION", [[toL "2.1"]], []⟩ =
      .error (.valueError (NOTE_INVALID_VALUE ++ toL ": " ++ toL "2.1"
        ++ toL " (expected \"3.0\")")) := by
  refine ⟨fun values params => ?_, by decide⟩
  have hdisp : validate_vcard_property ⟨toL "VERSION", values, params⟩ =
      handle_version ⟨toL "VERSION", values, params⟩ := rfl
  rw [hdisp]
  constructor
  · intro h
    match params, values with
    | p :: ps, _ =>
      simp [handle_version, _expect_no_parameters, except_bind_error, except_bind_ok] at h
    | [], [] =>
      simp [handle_version, _expect_no_parameters, _expect_value_count,
        except_bind_error, except_bind_ok] at h
    | [], v0 :: v1 :: vrest =>
      simp [handle_version, _expect_no_parameters, _expect_value_count,
        except_bind_error, except_bind_ok] at h
    | [], [[]] =>
      simp [handle_version, _expect_no_parameters, _expect_value_count, sub00, pyHead,
        except_bind_error, except_bind_ok] at h
    | [], [sv :: svrest] =>
      by_cases hv : sv = toL "3.0"
      · subst hv
        exact ⟨rfl, svrest, rfl⟩
      · exfalso
        simp [handle_version, _expect_no_parameters, _expect_value_count, sub00, pyHead,
          except_bind_error, except_bind_ok, except_pure, hv] at h
  · rintro ⟨rfl, rest, rfl⟩
    simp [handle_version, _expect_no_parameters, _expect_value_count, sub00, pyHead,
      except_bind_error, except_bind_ok, except_pure]

theorem C4_version_rule_amended_witness :
    validate_vcard_property ⟨toL "VERSION", [[toL "3.0"]], []⟩ = .ok [] :=
  (C4_version_rule_amended.1 [[toL "3.0"]] []).mpr ⟨rfl, [], rfl⟩

/-- C5 counterexample: an EMAIL property carrying an unknown `TYPE`
value does **not** always validate — here it fails with a value-count
error — so the claim's "for every EMAIL property carrying a TYPE
parameter value not in the email-type vocabulary, validation succeeds"
is false. -/
theorem C5_email_unknown_type_counterexample :
    validate_vcard_property
        ⟨toL "EMAIL", [[toL "a"], [toL "b"]], [(toL "TYPE", [toL "bogus"])]⟩ =
      .error (.itemCountError (NOTE_INVALID_VALUE_COUNT ++ toL ": " ++ natToL 2
        ++ toL " (expected " ++ natToL 1 ++ toL ")")) ∧
    EMAIL_TYPE_VALUES.contains (pyLower (toL "bogus")) = false :=
  ⟨by decide, by decide⟩

/-- C5 (amended): a TEL property whose only parameter is `TYPE` with
some value outside the phone-type vocabulary fails with a value error,
whatever its values; an EMAIL property whose only parameter is `TYPE`
with some value outside the email-type vocabulary and whose value part
is a single valid text sub-value validates successfully while emitting
at least one advisory warning — the warning channel never affects the
pass/fail outcome. -/
theorem C5_tel_email_type_amended :
    (∀ (values : List (List (List Char))) (vs : List (List Char)),
      (∃ v ∈ vs, pyLower v ∉ TELEPHONE_TYPE_VALUES) →
      ∃ m, validate_vcard_property ⟨toL "TEL", values, [(toL "TYPE", vs)]⟩ =
        .error (.valueError m)) ∧
    (∀ (v : List Char) (vs : List (List Char)),
      (∃ w ∈ vs, pyLower w ∉ EMAIL_TYPE_VALUES) →
      validate_text_value v = .ok () →
      ∃ ws, validate_vcard_property ⟨toL "EMAIL", [[v]], [(toL "TYPE", vs)]⟩ = .ok ws ∧
        ws ≠ []) := by
  constructor
  · intro values vs hex
    obtain ⟨bad, hmem, hbad⟩ := hex
    have hfind : (vs.find? (fun v => !TELEPHONE_TYPE_VALUES.contains (pyLower v))).isSome := by
      rw [List.find?_isSome]
      refine ⟨bad, hmem, ?_⟩
      simp [List.contains, hbad]
    obtain ⟨b, hb⟩ := Option.isSome_iff_exists.mp hfind
    refine ⟨NOTE_INVALID_PARAMETER_VALUE ++ toL ": " ++ b, ?_⟩
    have hdisp : validate_vcard_property ⟨toL "TEL", values, [(toL "TYPE", vs)]⟩ =
        handle_tel ⟨toL "TEL", values, [(toL "TYPE", vs)]⟩ := rfl
    rw [hdisp]
    have hloop : telParamsLoop values [(toL "TYPE", vs)] =
        .error (.valueError (NOTE_INVALID_PARAMETER_VALUE ++ toL ": " ++ b)) := by
      unfold telParamsLoop
      rw [if_pos (show pyUpper (toL "TYPE") = toL "TYPE" from rfl), hb]
    have h2 : handle_tel ⟨toL "TEL", values, [(toL "TYPE", vs)]⟩ =
        (telParamsLoop values [(toL "TYPE", vs)]) >>= (fun ws => do
          _expect_value_count values 1
          _expect_sub_value_count (← pyHead values) 1
          pure ws) := rfl
    rw [h2, hloop, except_bind_error]
  · intro v vs hex htext
    obtain ⟨bad, hmem, hbad⟩ := hex
    have hfil : bad ∈ vs.filter (fun w => !EMAIL_TYPE_VALUES.contains (pyLower w)) := by
      rw [List.mem_filter]
      refine ⟨hmem, ?_⟩
      simp [List.contains, hbad]
    have hne : (vs.filter (fun w => !EMAIL_TYPE_VALUES.contains (pyLower w))).map
        (fun w => WARN_INVALID_EMAIL_TYPE ++ toL ": " ++ w) ≠ [] := by
      intro habs
      rw [List.map_eq_nil] at habs
      rw [habs] at hfil
      simp at hfil
    refine ⟨((vs.filter (fun w => !EMAIL_TYPE_VALUES.contains (pyLower w))).map
        (fun w => WARN_INVALID_EMAIL_TYPE ++ toL ": " ++ w) ++
      (if vs.map pyLower = [toL "internet"] then
        [WARN_DEFAULT_TYPE_VALUE ++ toL ": " ++ pyReprValues [[v]]] else [])) ++ [], ?_, ?_⟩
    · have hdisp : validate_vcard_property ⟨toL "EMAIL", [[v]], [(toL "TYPE", vs)]⟩ =
          handle_email ⟨toL "EMAIL", [[v]], [(toL "TYPE", vs)]⟩ := rfl
      rw [hdisp]
      have hloop : emailParamsLoop [[v]] [(toL "TYPE", vs)] =
          .ok (((vs.filter (fun w => !EMAIL_TYPE_VALUES.contains (pyLower w))).map
              (fun w => WARN_INVALID_EMAIL_TYPE ++ toL ": " ++ w) ++
            (if vs.map pyLower = [toL "internet"] then
              [WARN_DEFAULT_TYPE_VALUE ++ toL ": " ++ pyReprValues [[v]]] else [])) ++ []) := by
        unfold emailParamsLoop
        rw [if_pos (show pyUpper (toL "TYPE") = toL "TYPE" from rfl)]
        rfl
      have h2 : handle_email ⟨toL "EMAIL", [[v]], [(toL "TYPE", vs)]⟩ =
          (emailParamsLoop [[v]] [(toL "TYPE", vs)]) >>= (fun ws => do
            _expect_value_count ([[v]] : List (List (List Char))) 1
            let v0 ← pyHead ([[v]] : List (List (List Char)))
            _expect_sub_value_count v0 1
            validate_text_value (← pyHead v0)
            pure ws) := rfl
      rw [h2, hloop, except_bind_ok]
      show validate_text_value v >>= (fun _ => pure _) = _
      rw [htext, except_bind_ok]
      rfl
    · intro habs
      rw [List.append_eq_nil] at habs
      rw [List.append_eq_nil] at habs
      exact hne habs.1.1

theorem param_values_cases (v : List Char) :
    (∃ vals, get_vcard_property_param_values v = .ok vals) ∨
    (∃ m, get_vcard_property_param_values v = .error (.valueError m)) := by
  simp only [get_vcard_property_param_values]
  cases hf : (pySet (split_unescaped v ',')).find? (fun x => !pyFullMatch paramValueCore x) with
  | some bad => right; exact ⟨_, rfl⟩
  | none => left; exact ⟨_, rfl⟩

theorem parameterFromParts_no_itemCount (a b m : List Char) :
    parameterFromParts a b ≠ .error (.itemCountError m) := by
  unfold parameterFromParts
  rcases param_values_cases b with ⟨vals, hv⟩ | ⟨mm, hv⟩
  · rw [hv, except_bind_ok]
    cases hpf : pyFullMatch idPlusCore a <;> simp [hpf]
  · rw [hv, except_bind_error]
    simp

/-- C7 counterexample: a parameter spec with a second unescaped `=` is
**rejected** with the cardinality error (the source unpacks the full
split into exactly two names), not split at the first `=` as the claim
states — and the cardinality error thus also occurs with an unescaped
`=` present. -/
theorem C7_double_equals_counterexample :
    get_vcard_property_parameter (toL "TYPE=a=b") =
      .error (.itemCountError (NOTE_MISSING_PARAM_VALUE ++ toL ": " ++ unpackMsg 3)) ∧
    countUnescaped '=' (toL "TYPE=a=b") false = 2 :=
  ⟨by decide, by decide⟩

/-- C7 (amended): parameter parsing fails with a cardinality
(item-count) error exactly when the number of unescaped `=` in the
spec is **not exactly one**; when there is exactly one, the spec is
split at it into the parameter name and the comma-split value set
(processed by `parameterFromParts`). -/
theorem C7_parameter_split_amended (s : List Char) :
    ((∃ m, get_vcard_property_parameter s = .error (.itemCountError m)) ↔
      countUnescaped '=' s false ≠ 1) ∧
    (∀ i, find_unescaped s '=' = some i → countUnescaped '=' s false = 1 →
      get_vcard_property_parameter s = parameterFromParts (s.take i) (s.drop (i + 1))) := by
  have heq : ('=' : Char) ≠ '\\' := by decide
  have hlen := split_unescaped_length heq s.length s (le_refl _)
  constructor
  · constructor
    · rintro ⟨m, hm⟩ hcount
      have h2 : (split_unescaped s '=').length = 2 := by rw [hlen, hcount]
      obtain ⟨a, b, hab⟩ := List.length_eq_two.mp h2
      simp only [get_vcard_property_parameter] at hm
      rw [hab] at hm
      exact parameterFromParts_no_itemCount a b m hm
    · intro hcount
      have h2 : (split_unescaped s '=').length ≠ 2 := by rw [hlen]; omega
      refine ⟨NOTE_MISSING_PARAM_VALUE ++ toL ": "
        ++ unpackMsg (split_unescaped s '=').length, ?_⟩
      simp only [get_vcard_property_parameter]
      rcases hsp : split_unescaped s '=' with _ | ⟨a, _ | ⟨b, _ | ⟨c, rest⟩⟩⟩
      · rfl
      · rfl
      · rw [hsp] at h2; simp at h2
      · rfl
  · intro i hfind hcount
    have hscan := hfind
    rw [find_unescaped_eq_scanU heq] at hscan
    have hdrop0 : countUnescaped '=' (s.drop (i + 1)) false = 0 := by
      have hc := scanU_some_count heq hscan
      rw [hcount] at hc
      omega
    have hfinddrop : find_unescaped (s.drop (i + 1)) '=' = none := by
      rw [find_unescaped_eq_scanU heq]
      exact scanU_none_iff.mpr hdrop0
    have hsplit : split_unescaped s '=' = [s.take i, s.drop (i + 1)] := by
      rw [split_unescaped_some hfind, split_unescaped_none hfinddrop]
    simp only [get_vcard_property_parameter]
    rw [hsplit]

theorem C7_parameter_split_amended_witness :
    (∃ m, get_vcard_property_parameter (toL "TYPE") = .error (.itemCountError m)) ∧
    get_vcard_property_parameter (toL "TYPE=work") =
      parameterFromParts ((toL "TYPE=work").take 4) ((toL "TYPE=work").drop 5) :=
  ⟨(C7_parameter_split_amended (toL "TYPE")).1.mpr (by decide),
   (C7_parameter_split_amended (toL "TYPE=work")).2 4 (by decide) (by decide)⟩

/-- C8: property decomposition splits a logical line at the first
unescaped colon: with no unescaped colon it fails with the cardinality
(missing-value-string) error, and with one or more the processing
continues on the prefix before the first unescaped colon and the
entire remainder (further unescaped colons are rejoined into the value
rather than causing an error). -/
theorem C8_property_colon_split (line : List Char) :
    (countUnescaped ':' line false = 0 →
      get_vcard_property line =
        .error (.itemCountError (NOTE_MISSING_VALUE_STRING ++ toL ": " ++ line))) ∧
    (∀ i, find_unescaped line ':' = some i →
      get_vcard_property line = propertyFromParts (line.take i) (line.drop (i + 1))) := by
  have heq : (':' : Char) ≠ '\\' := by decide
  constructor
  · intro hcount
    have hfind : find_unescaped line ':' = none := by
      rw [find_unescaped_eq_scanU heq]
      exact scanU_none_iff.mpr hcount
    simp only [get_vcard_property]
    rw [split_unescaped_none hfind]
    rfl
  · intro i hfind
    have hjoin := split_unescaped_join (line.drop (i + 1)).length (line.drop (i + 1))
      (le_refl _) ':'
    have hne := split_unescaped_ne_nil (line.drop (i + 1)) ':'
    simp only [get_vcard_property]
    rw [split_unescaped_some hfind]
    rw [if_neg (by
      simp only [List.length_cons]
      have : 0 < (split_unescaped (line.drop (i + 1)) ':').length :=
        List.length_pos.mpr hne
      omega)]
    show propertyFromParts (line.take i)
      (joinWith [':'] (split_unescaped (line.drop (i + 1)) ':')) = _
    rw [hjoin]

theorem C8_property_colon_split_witness :
    get_vcard_property (toL "FNnocolon\r\n") =
      .error (.itemCountError (NOTE_MISSING_VALUE_STRING ++ toL ": "
        ++ toL "FNnocolon\r\n")) ∧
    get_vcard_property (toL "FN:a:b\r\n") =
      propertyFromParts ((toL "FN:a:b\r\n").take 2) ((toL "FN:a:b\r\n").drop 3) :=
  ⟨(C8_property_colon_split (toL "FNnocolon\r\n")).1 (by decide),
   (C8_property_colon_split (toL "FN:a:b\r\n")).2 2 (by decide)⟩

set_option maxHeartbeats 2000000 in
/-- C10: the file driver ends a record chunk only at a physical line
equal character-for-character to `END:VCARD\r\n`: a file whose lines
never match that exactly (case-different, grouped, or folded END
lines included) never validates a record and lands in the trailing
"lines remain" report — even though record-level END validation itself
accepts the lowercase `end:vcard` record. -/
theorem C10_end_line_exact_chunking :
    (∀ (filename text : List Char), text ≠ [] →
      (∀ l ∈ pySplitlines true text, l ≠ toL "END:VCARD" ++ NEWLINE_CHARACTERS) →
      validate_file_contents filename text = .ok (linesRemainMsg filename text)) ∧
    isOk (VCard_init lowerEndText) = true ∧
    (∀ filename, validate_file_contents filename lowerEndText =
      .ok (linesRemainMsg filename lowerEndText)) := by
  have main : ∀ (filename text : List Char), text ≠ [] →
      (∀ l ∈ pySplitlines true text, l ≠ toL "END:VCARD" ++ NEWLINE_CHARACTERS) →
      validate_file_contents filename text = .ok (linesRemainMsg filename text) := by
    intro filename text hne hnoend
    have hloop : validateLoop (pySplitlines true text) [] = (none, text) := by
      rw [validateLoop_no_end _ hnoend [], List.nil_append, pySplitlines_flatten]
    simp only [validate_file_contents, hloop]
    rw [if_pos hne]
  exact ⟨main, by decide, fun filename =>
    main filename lowerEndText (by decide) (by decide)⟩

theorem C10_end_line_exact_chunking_witness :
    validate_file_contents (toL "f") (toL "A\r\n") =
      .ok (linesRemainMsg (toL "f") (toL "A\r\n")) :=
  C10_end_line_exact_chunking.1 (toL "f") (toL "A\r\n") (by decide) (by decide)

theorem C5_tel_email_type_amended_witness :
    (∃ m, validate_vcard_property
        ⟨toL "TEL", [[toL "+1-555-0100"]], [(toL "TYPE", [toL "bogus"])]⟩ =
      .error (.valueError m)) ∧
    (∃ ws, validate_vcard_property
        ⟨toL "EMAIL", [[toL "a@b.c"]], [(toL "TYPE", [toL "bogus"])]⟩ = .ok ws ∧ ws ≠ []) :=
  ⟨C5_tel_email_type_amended.1 [[toL "+1-555-0100"]] [toL "bogus"]
      ⟨toL "bogus", by decide, by decide⟩,
   C5_tel_email_type_amended.2 (toL "a@b.c") [toL "bogus"]
      ⟨toL "bogus", by decide, by decide⟩ (by decide)⟩

end VcardSpec
